import Mathlib

/-!
Shallow embedding of the Laudiolin gateway (`src/features/gateway.ts`).

The gateway keeps several process-wide registries:
* `clients`  — connection id → session state (`const clients = {}`),
* `users`    — user id → the user's live sessions (`export const users = {}`),
* `onlineUsers` / `recentUsers` — social projections (`features/social`),
* `hasBot`   — the bot-singleton flag (`let hasBot = false`).

JavaScript objects used as string-keyed maps are embedded as association
lists `List (String × α)` (first match wins on lookup; key sets stay
duplicate-free because insertion replaces an existing key).  Mutable
`Client` objects are embedded as an arena: sessions refer to each other by
connection id, resolved through the `clients` registry, exactly as the
spec's design notes suggest for the reference graph.

Asynchrony: the handshake resolution runs in a `setTimeout(..., 1000)`;
we embed it as a queue of pending tasks (`pending`) fired in FIFO order,
which matches the event-loop behaviour of equal-delay timers.  External
collaborator calls (the Discord presence publisher, the database writes)
are modelled as outputs, not state.
-/

set_option linter.unusedVariables false

namespace Laudiolin

/-! ## Association-list maps (JS objects keyed by strings) -/

/-- First-match lookup in an association list, like `obj[key]`. -/
def lookupKV {α : Type} : List (String × α) → String → Option α
  | [], _ => none
  | (k, v) :: rest, key => if k = key then some v else lookupKV rest key

/-- `obj[key] = value`: replace the value at an existing key, otherwise
append a fresh key (JS objects keep insertion order). -/
def setKV {α : Type} : List (String × α) → String → α → List (String × α)
  | [], key, value => [(key, value)]
  | (k, v) :: rest, key, value =>
    if k = key then (k, value) :: rest else (k, v) :: setKV rest key value

/-- `delete obj[key]`. -/
def delKV {α : Type} (m : List (String × α)) (key : String) : List (String × α) :=
  m.filter (fun p => p.1 ≠ key)

/-- Apply `f` to the value stored at `key` (no-op when absent). -/
def mapKV {α : Type} (m : List (String × α)) (key : String) (f : α → α) :
    List (String × α) :=
  m.map (fun p => if p.1 = key then (p.1, f p.2) else p)

/-! ## Data model (types from `app/types`, as used by the gateway) -/

/-- Track metadata (`Track` in `app/types`). -/
structure Track where
  id : String
  title : String
  artist : String
  icon : String
  url : String
  duration : Int
  deriving DecidableEq

/-- Persisted user record, the fields the gateway reads
(`User` in `app/types`, stored in the database collaborator). -/
structure User where
  userId : String
  username : String
  discriminator : String
  avatar : String
  presenceToken : Option String := none
  recentlyPlayed : Option (List Track) := none
  deriving DecidableEq

/-- `OnlineUser` projection (`features/social`). -/
structure OnlineUser where
  socialStatus : String
  username : String
  discriminator : String
  userId : String
  avatar : String
  progress : Int
  listeningTo : Option Track
  deriving DecidableEq

/-- `OfflineUser` snapshot (`features/social`, the recent-users map). -/
structure OfflineUser where
  socialStatus : String
  username : String
  discriminator : String
  userId : String
  avatar : String
  lastSeen : Int
  lastListeningTo : Option Track
  deriving DecidableEq

/-- Per-session state: the mutable fields of `class Client`.
`hasInitialized` is embedded as `initDone` (same meaning). -/
structure ClientState where
  initDone : Bool := false
  userId : Option String := none
  lastPing : Int
  startedListening : Option Int := none
  listeningTo : Option Track := none
  paused : Bool := true
  progress : Int := 0
  volume : Int := 1
  socialStatus : String := "Nobody"
  presenceMode : String := "None"
  listeningAlong : List String := []
  listeningWith : Option String := none
  lastUpdate : Int
  deriving DecidableEq

/-- A task scheduled by `setTimeout` inside `Client.initialized`. -/
inductive PendingTask where
  /-- body of the bot branch: `this.userId = "bot"; hasBot = true; ...` -/
  | botClaim (sid : String)
  /-- body of the user branch: resolve the token, register the session. -/
  | authResolve (sid : String) (token : Option String)
      (vis : Option String) (pmode : Option String)
  deriving DecidableEq

/-- The process-wide gateway state. -/
structure GatewayState where
  clients : List (String × ClientState) := []
  users : List (String × List String) := []
  onlineUsers : List (String × OnlineUser) := []
  recentUsers : List (String × OfflineUser) := []
  hasBot : Bool := false
  pending : List PendingTask := []
  deriving DecidableEq

/-- Lookup a session in the connection registry. -/
def lookupC (st : GatewayState) (sid : String) : Option ClientState :=
  lookupKV st.clients sid

/-- Update one session's state in place. -/
def updC (st : GatewayState) (sid : String) (f : ClientState → ClientState) :
    GatewayState :=
  { st with clients := mapKV st.clients sid f }

/-- Remove one session from the connection registry. -/
def delC (st : GatewayState) (sid : String) : GatewayState :=
  { st with clients := delKV st.clients sid }

/-! ## Outbound frames -/

/-- The gateway-to-client frames the embedded code can emit.  Error frames
correspond to `INVALID_JSON`, `GATEWAY_NOT_INITIALIZED`,
`GATEWAY_INVALID_TOKEN` and `GATEWAY_UNKNOWN_MESSAGE` in `app/constants`. -/
inductive OutMessage where
  | initFrame
  | pingFrame (latency : Int)
  | syncFrame (track : Option Track) (progress : Int) (paused : Bool) (seek : Option Bool)
  | recentsFrame (recents : List Track)
  | successFetch
  | invalidJson
  | notInitFrame
  | invalidToken
  | unknownMessage
  deriving DecidableEq

/-- The `sync` frame sent to a follower when its host leaves
(`track = null, progress = -1, paused = true`, no `seek` field). -/
def nullSyncFrame : OutMessage := OutMessage.syncFrame none (-1) true none

/-- Deployment configuration (`app/constants`), opaque to the gateway. -/
structure Config where
  discordToken : String
  discordClientId : String
  discordIcon : String
  webTarget : String
  customListening : Bool
  deriving DecidableEq

/-- A decoded inbound frame.  The gateway reads only `type` and, for the
handshake, the destructured `token` / `broadcast` / `presence` fields
(absent fields are `none`, like `undefined`). -/
structure GatewayMessage where
  type : String
  token : Option String := none
  broadcast : Option String := none
  presence : Option String := none
  deriving DecidableEq

/-! ## Session construction (`handleConnection` / the `Client` constructor) -/

/-- Field defaults of a freshly constructed `Client`
(`lastPing` and `lastUpdate` are initialized to `Date.now()`). -/
def freshClient (now : Int) : ClientState :=
  { lastPing := now, lastUpdate := now }

/-- `handleConnection`: allocate the session and send the `init` frame. -/
def connect (st : GatewayState) (sid : String) (now : Int) :
    GatewayState × List (String × OutMessage) :=
  ({ st with clients := setKV st.clients sid (freshClient now) },
   [(sid, OutMessage.initFrame)])

/-! ## Broadcast primitive -/

/-- `broadcast(userId, payload)`: push the payload to every session in the
User Index entry; no-op when there is no entry. -/
def broadcast (st : GatewayState) (userId : String) (payload : OutMessage) :
    List (String × OutMessage) :=
  match lookupKV st.users userId with
  | none => []
  | some sessions => sessions.map (fun sid => (sid, payload))

/-! ## Listen-along coordinator -/

/-- JS `obj[key] = v` on the `listeningAlong` object: the key set gains
`fid` if absent (insertion order preserved). -/
def insertKey (l : List String) (fid : String) : List String :=
  if fid ∈ l then l else l ++ [fid]

/-- `Client.syncWith(seek)`: if this session has a host, push one `sync`
frame carrying the host's current track, progress and paused state. -/
def syncWith (st : GatewayState) (sid : String) (seek : Bool) :
    List (String × OutMessage) :=
  match lookupC st sid with
  | none => []
  | some c =>
    match c.listeningWith with
    | none => []
    | some hid =>
      match lookupC st hid with
      | none => []
      | some host =>
        [(sid, OutMessage.syncFrame host.listeningTo host.progress host.paused (some seek))]

/-- `Client.listenAlong(client)`: add this session to the host's
`listeningAlong`, set `listeningWith`, then `syncWith(true)`.
(Both sessions are registered objects when the gateway calls this.) -/
def listenAlong (st : GatewayState) (fid hid : String) :
    GatewayState × List (String × OutMessage) :=
  match lookupC st fid, lookupC st hid with
  | some _, some _ =>
    let st1 := updC st hid (fun h => { h with listeningAlong := insertKey h.listeningAlong fid })
    let st2 := updC st1 fid (fun f => { f with listeningWith := some hid })
    (st2, syncWith st2 fid true)
  | _, _ => (st, [])

/-- `Client.stopListeningAlong(host)`: remove this session from its host's
`listeningAlong` and clear `listeningWith`; when the host left, send the
null `sync` frame so the client stops playback. -/
def stopListeningAlong (st : GatewayState) (sid : String) (hostLeft : Bool) :
    GatewayState × List (String × OutMessage) :=
  match lookupC st sid with
  | none => (st, [])
  | some c =>
    match c.listeningWith with
    | none => (st, [])
    | some hid =>
      let st1 := updC st hid (fun h => { h with listeningAlong := h.listeningAlong.erase sid })
      let st2 := updC st1 sid (fun f => { f with listeningWith := none })
      (st2, if hostLeft then [(sid, nullSyncFrame)] else [])

/-- `Client.updateListeners()`: force-sync every follower of this host. -/
def updateListeners (st : GatewayState) (sid : String) :
    List (String × OutMessage) :=
  match lookupC st sid with
  | none => []
  | some c => c.listeningAlong.flatMap (fun f => syncWith st f true)

/-- The `forEach` in `handleClose`: `stopListeningAlong(true)` for each
follower of the closing host, in snapshot order. -/
def stopAll (st : GatewayState) (fs : List String) :
    GatewayState × List (String × OutMessage) :=
  match fs with
  | [] => (st, [])
  | f :: rest =>
    let r1 := stopListeningAlong st f true
    let r2 := stopAll r1.1 rest
    (r2.1, r1.2 ++ r2.2)

/-- The listen-along teardown at the top of `handleClose`: stop this
session's own follow edge, then stop every follower (host-initiated). -/
def closeTeardown (st : GatewayState) (sid : String) :
    GatewayState × List (String × OutMessage) :=
  match lookupC st sid with
  | none => (st, [])
  | some c =>
    let r1 := if c.listeningWith.isSome then stopListeningAlong st sid false else (st, [])
    let snapshot := match lookupC r1.1 sid with
      | none => []
      | some c1 => c1.listeningAlong
    let r2 := stopAll r1.1 snapshot
    (r2.1, r1.2 ++ r2.2)

/-! ## Online/recent directory updates on close -/

/-- `Client.asOfflineUser()` with the `lastSeen`/`lastListeningTo` spread
from `handleClose` (both overwrite with the same values). -/
def mkOfflineUser (c : ClientState) (user : User) (now : Int) : OfflineUser :=
  { socialStatus := c.socialStatus
    username := user.username
    discriminator := user.discriminator
    userId := user.userId
    avatar := user.avatar
    lastSeen := now
    lastListeningTo := c.listeningTo }

/-- `Client.asOnlineUser(user)`. -/
def mkOnlineUser (c : ClientState) (user : User) : OnlineUser :=
  { socialStatus := c.socialStatus
    username := user.username
    discriminator := user.discriminator
    userId := user.userId
    avatar := user.avatar
    progress := c.progress
    listeningTo := c.listeningTo }

/-- `users[uid].splice(users[uid].indexOf(this), 1)`: remove the first
occurrence; JS `indexOf` yields `-1` when absent, and `splice(-1, 1)`
removes the last element. -/
def removeSession (sessions : List String) (sid : String) : List String :=
  if sid ∈ sessions then sessions.erase sid else sessions.dropLast

/-- `Client.handleClose()`.  The call
`updatePresence(this.userId, null)` goes to the external presence
publisher (`features/discord`) and carries no gateway state; it is not
recorded here.  `dbUsers` is the user-directory view consulted by
`asOfflineUser`. -/
def handleClose (st : GatewayState) (sid : String)
    (dbUsers : List (String × User)) (now : Int) :
    GatewayState × List (String × OutMessage) :=
  match lookupC st sid with
  | none => (st, [])
  | some c =>
    let r1 := closeTeardown st sid
    -- delete clients[this.getId()]
    let st2 := delC r1.1 sid
    match c.userId with
    | none => (st2, r1.2)
    | some uid =>
      match lookupKV st2.users uid with
      | none => (st2, r1.2)
      | some sessions =>
        -- if (!recentUsers[uid] && this.listeningTo) snapshot an OfflineUser
        let st3 :=
          if lookupKV st2.recentUsers uid = none ∧ c.listeningTo.isSome then
            match lookupKV dbUsers uid with
            | none => st2
            | some user =>
              { st2 with recentUsers := setKV st2.recentUsers uid (mkOfflineUser c user now) }
          else st2
        -- onlineUsers[uid] && delete onlineUsers[uid]
        let st4 := { st3 with onlineUsers := delKV st3.onlineUsers uid }
        -- shrink or delete the User Index entry
        let st5 :=
          if sessions.length < 2 then { st4 with users := delKV st4.users uid }
          else { st4 with users := setKV st4.users uid (removeSession sessions sid) }
        (st5, r1.2)

/-- `Client.updateOnlineStatus(sync?)`: lazily create the `OnlineUser`
projection, then update its track and progress in place.  `userRec` is the
database result consulted on the lazy-creation path. -/
def updateOnlineStatus (st : GatewayState) (sid : String)
    (userRec : Option User) (syncArg : Option Int) : GatewayState :=
  match lookupC st sid with
  | none => st
  | some c =>
    match c.userId with
    | none => st   -- onlineUsers[null]: no usable entry, asOnlineUser yields null
    | some uid =>
      let existing := lookupKV st.onlineUsers uid
      let created : Option OnlineUser :=
        match existing with
        | some o => some o
        | none => userRec.map (mkOnlineUser c)
      match created with
      | none => st
      | some o =>
        let o1 := { o with listeningTo := c.listeningTo,
                           progress := syncArg.getD c.progress }
        { st with onlineUsers := setKV st.onlineUsers uid o1 }

/-! ## Presence synchronizer (`Client.updatePresence`) -/

/-- JS truthiness of an optional string (`undefined`/`""` are falsy). -/
def jsTruthy (s : Option String) : Bool :=
  match s with
  | none => false
  | some str => str ≠ ""

/-- Discord activity type (`PresenceType` in `app/types`). -/
inductive PType where
  | playing
  | listening
  deriving DecidableEq

/-- The presence payload the gateway builds before delegating to the
Presence Publisher. -/
structure PresencePayload where
  platform : String
  id : String
  name : String
  ptype : PType
  applicationId : String
  details : String
  state : String
  tsStart : Option Int
  tsEnd : Int
  largeImage : String
  largeText : String
  smallImage : String
  smallText : String
  buttons : List (String × String)
  sessionId : Option String := none
  party : Option String := none
  flags : Option Int := none
  deriving DecidableEq

/-- One call to the Presence Publisher: `updatePresence(user, null)` or
`updatePresence(user, presence)`. -/
inductive PresenceCall where
  | clear
  | set (p : PresencePayload)
  deriving DecidableEq

/-- The payload built at lines 279–326 of `gateway.ts` for a session with
a current `track`.  (JS note: `timestamps.end` is
`startedListening + duration*1000`, where a `null` start coerces to 0.) -/
def buildPresence (c : ClientState) (user : User) (track : Track) (cfg : Config) :
    PresencePayload :=
  let base : PresencePayload :=
    { platform := "desktop"
      id := "laudiolin"
      name := "Laudiolin"
      ptype := PType.playing
      applicationId := cfg.discordClientId
      details := "Listening to " ++ track.title
      state := track.artist
      tsStart := c.startedListening
      tsEnd := c.startedListening.getD 0 + track.duration * 1000
      largeImage := track.icon
      largeText := track.title
      smallImage := cfg.discordIcon
      smallText := "Laudiolin"
      buttons :=
        [("Play on Laudiolin", cfg.webTarget ++ "/track/" ++ track.id),
         ("Listen Along", cfg.webTarget ++ "/listen/" ++ user.userId)] }
  if c.presenceMode = "Simple" then
    if !cfg.customListening then
      { base with
          ptype := PType.listening
          id := "spotify:1"
          name := "Spotify"
          details := track.title
          largeText := "Laudiolin"
          sessionId := some "4efa609dfa405bb70c0da334220d4a3f"
          party := some "spotify:852697865012117544"
          flags := some 48 }
    else
      { base with ptype := PType.listening, details := track.title }
  else base

/-- `Client.updatePresence()`: debounced by `lastUpdate` (4000 ms), then
either clears or publishes a presence via the Presence Publisher.
`userRec` is the result of the `getUser()` database lookup. -/
def updatePresence (c : ClientState) (now : Int) (userRec : Option User)
    (cfg : Config) : ClientState × Option PresenceCall :=
  if now - c.lastUpdate < 4000 then (c, none)
  else
    let c1 := { c with lastUpdate := now }
    match userRec with
    | none => (c1, none)
    | some user =>
      if c1.presenceMode = "None" then
        if jsTruthy user.presenceToken then (c1, some PresenceCall.clear)
        else (c1, none)
      else
        match c1.listeningTo with
        | none => (c1, some PresenceCall.clear)
        | some track => (c1, some (PresenceCall.set (buildPresence c1 user track cfg)))

/-- Run a sequence of presence-relevant events: each event carries the
invocation time and the database view at that moment.  Returns the final
session state and the number of Presence Publisher calls made. -/
def runPresenceEvents (c : ClientState) (cfg : Config) :
    List (Int × Option User) → ClientState × Nat
  | [] => (c, 0)
  | (now, userRec) :: rest =>
    let r := updatePresence c now userRec cfg
    let r2 := runPresenceEvents r.1 cfg rest
    (r2.1, (if r.2.isSome then 1 else 0) + r2.2)

/-! ## Recently played (`Client.addRecentlyPlayed`) -/

/-- The list update: drop an existing entry with the same id, prepend the
track, keep at most 9 entries (`splice`/`unshift`/`slice(0, 9)`). -/
def updatedRecents (stored : Option (List Track)) (track : Track) : List Track :=
  let recentlyPlayed := stored.getD []
  let recentlyPlayed :=
    if (recentlyPlayed.findIdx? (fun t => t.id = track.id)).isSome then
      recentlyPlayed.eraseP (fun t => t.id = track.id)
    else recentlyPlayed
  (track :: recentlyPlayed).take 9

/-- `Client.addRecentlyPlayed(track)`: update the stored list, persist it
(`database.updateUser`, returned as the new record), and broadcast the
`recents` frame to every session of the user.  When the session is
unauthenticated or the record is missing the JS code faults on the reads;
those states are unreachable for the gateway's own call sites. -/
def addRecentlyPlayed (st : GatewayState) (sid : String) (track : Track)
    (dbUsers : List (String × User)) :
    Option User × List (String × OutMessage) :=
  match lookupC st sid with
  | none => (none, [])
  | some c =>
    match c.userId with
    | none => (none, [])
    | some uid =>
      match lookupKV dbUsers uid with
      | none => (none, [])
      | some user =>
        let newList := updatedRecents user.recentlyPlayed track
        let user1 := { user with recentlyPlayed := some newList }
        (some user1, broadcast st uid (OutMessage.recentsFrame newList))

/-! ## Handshake and dispatcher -/

/-- The string-keyed handler table of `gateway.ts` (handler bodies live in
the separate `messages/` modules). -/
def hasHandler (t : String) : Bool :=
  t = "latency" ∨ t = "seek" ∨ t = "volume" ∨ t = "listen" ∨ t = "player" ∨
    t = "load-users" ∨ t = "user-update"

/-- `Client.initialized(data)`: `true` when the session may proceed.  On
the first handshake frame it marks the session initialized, pings it, and
schedules the asynchronous resolution (`setTimeout(..., 1000)`) as a
pending task; the bot guard reads `hasBot` *now*, but the flag itself is
only set when the task later runs. -/
def initCheck (st : GatewayState) (sid : String) (msg : GatewayMessage)
    (now : Int) (cfg : Config) :
    Bool × GatewayState × List (String × OutMessage) :=
  match lookupC st sid with
  | none => (true, st, [])   -- unreachable: handlers are bound to live sessions
  | some c =>
    if c.initDone then (true, st, [])
    else if msg.type ≠ "initialize" then (false, st, [])
    else
      let st1 := updC st sid (fun cl => { cl with initDone := true })
      let pingOut := [(sid, OutMessage.pingFrame (now - c.lastPing))]
      if !st.hasBot ∧ msg.token = some cfg.discordToken then
        (true, { st1 with pending := st1.pending ++ [PendingTask.botClaim sid] }, pingOut)
      else
        (true, { st1 with pending := st1.pending ++
            [PendingTask.authResolve sid msg.token msg.broadcast msg.presence] }, pingOut)

/-- Result of one dispatcher or task step: the new state, the frames
pushed to sessions, the connections the server closes, and which handler
module (if any) was entered. -/
structure StepResult where
  st : GatewayState
  sends : List (String × OutMessage)
  closes : List String
  handlerRan : Option String
  deriving DecidableEq

/-- `Client.handleMessage` for a frame that already decoded as JSON
(non-JSON input is answered with `INVALID_JSON` + disconnect before any
of this runs). -/
def recvFrame (st : GatewayState) (sid : String) (msg : GatewayMessage)
    (now : Int) (cfg : Config) : StepResult :=
  let r := initCheck st sid msg now cfg
  if !r.1 then
    { st := r.2.1
      sends := r.2.2 ++ [(sid, OutMessage.notInitFrame)]
      closes := [sid]
      handlerRan := none }
  else if msg.type = "initialize" then
    { st := r.2.1, sends := r.2.2, closes := [], handlerRan := none }
  else if hasHandler msg.type then
    -- the typed handler (a separate `messages/` module) takes over
    { st := r.2.1, sends := r.2.2, closes := [], handlerRan := some msg.type }
  else
    { st := r.2.1
      sends := r.2.2 ++ [(sid, OutMessage.unknownMessage)]
      closes := [sid]
      handlerRan := none }

/-- Fire the oldest pending `setTimeout` task (equal delays run in FIFO
order).  `dbByToken` and `dbById` are the user-directory views; the
presence call made on the `presenceToken` path goes to the external
publisher and is not recorded.  A task whose session has since closed is
not modelled further (the JS callback would mutate the dead object). -/
def fireNext (st : GatewayState) (dbByToken : List (String × User))
    (dbById : List (String × User)) (now : Int) (cfg : Config) : StepResult :=
  match st.pending with
  | [] => { st := st, sends := [], closes := [], handlerRan := none }
  | task :: rest =>
    let st0 := { st with pending := rest }
    match task with
    | PendingTask.botClaim sid =>
      -- this.userId = "bot"; hasBot = true; send SUCCESS({type:"fetch"})
      let st1 := updC st0 sid (fun c => { c with userId := some "bot" })
      let st2 := { st1 with hasBot := true }
      { st := st2, sends := [(sid, OutMessage.successFetch)], closes := [], handlerRan := none }
    | PendingTask.authResolve sid token vis pmode =>
      match lookupC st0 sid with
      | none => { st := st0, sends := [], closes := [], handlerRan := none }
      | some _ =>
        match token.bind (lookupKV dbByToken) with
        | none =>
          { st := st0
            sends := [(sid, OutMessage.invalidToken)]
            closes := [sid]
            handlerRan := none }
        | some user =>
          let st1 := updC st0 sid (fun c => { c with userId := some user.userId })
          let newSessions :=
            match lookupKV st1.users user.userId with
            | none => [sid]
            | some l => l ++ [sid]
          let st2 := { st1 with users := setKV st1.users user.userId newSessions }
          let st3 := updC st2 sid (fun c =>
            { c with socialStatus := vis.getD "Everyone",
                     presenceMode := pmode.getD "None" })
          let st4 := { st3 with recentUsers := delKV st3.recentUsers user.userId }
          match lookupC st4 sid with
          | none => { st := st4, sends := [], closes := [], handlerRan := none }
          | some c4 =>
            let newOnline := setKV st4.onlineUsers user.userId (mkOnlineUser c4 user)
            let st5 := { st4 with onlineUsers := newOnline }
            let st6 :=
              if jsTruthy user.presenceToken then
                let pr := updatePresence c4 now (lookupKV dbById user.userId) cfg
                updC st5 sid (fun _ => pr.1)
              else st5
            { st := st6, sends := [], closes := [], handlerRan := none }

/-! ## The listen-along mutual-inverse invariant (spec §3)

`A.listeningWith == B ⇒ A ∈ B.listeningAlong` and conversely
`A ∈ B.listeningAlong ⇒ A.listeningWith == B`; `listeningAlong` is a JS
object keyed by session id, so its key list is duplicate-free. -/

/-- Forward edge check: a session's `listeningWith`, when set, points to a
registered host whose `listeningAlong` contains it. -/
def hostEdgeOk (st : GatewayState) (a : String) : Option String → Bool
  | none => true
  | some b =>
    match lookupC st b with
    | none => false
    | some cb => decide (a ∈ cb.listeningAlong)

/-- Backward edge check: a follower listed in `a.listeningAlong` is a
registered session whose `listeningWith` is `a`. -/
def backEdgeOk (st : GatewayState) (a f : String) : Bool :=
  match lookupC st f with
  | none => false
  | some cf => decide (cf.listeningWith = some a)

/-- All edge conditions for one session id. -/
def clientOk (st : GatewayState) (a : String) : Bool :=
  match lookupC st a with
  | none => true
  | some ca =>
    hostEdgeOk st a ca.listeningWith &&
      ca.listeningAlong.all (backEdgeOk st a) &&
      decide ca.listeningAlong.Nodup

/-- Decidable form of the mutual-inverse invariant over the registry. -/
def invB (st : GatewayState) : Bool :=
  st.clients.all (fun p => clientOk st p.1)

/-- The listen-along invariant as a proposition. -/
def inv (st : GatewayState) : Prop := invB st = true

instance (st : GatewayState) : Decidable (inv st) := by unfold inv; infer_instance

/-! ## Lemma library: association-list maps and registry lookups -/

@[simp] theorem lookupKV_nil {α : Type} (k : String) :
    lookupKV ([] : List (String × α)) k = none := rfl

@[simp] theorem lookupKV_cons {α : Type} (k key : String) (v : α) (rest) :
    lookupKV ((k, v) :: rest) key = if k = key then some v else lookupKV rest key := rfl

theorem lookupKV_mapKV {α : Type} (m : List (String × α)) (key a : String) (f : α → α) :
    lookupKV (mapKV m key f) a =
      if a = key then (lookupKV m key).map f else lookupKV m a := by
  induction m with
  | nil => simp [mapKV]
  | cons p rest ih =>
    obtain ⟨k, v⟩ := p
    simp only [mapKV, List.map_cons] at ih ⊢
    by_cases hk : k = key
    · subst hk
      by_cases ha : a = k
      · subst ha; simp
      · have ha' : ¬ k = a := fun h => ha h.symm
        simp [ha, ha', ih]
    · by_cases ha : a = k
      · subst ha
        have hk' : ¬ a = key := hk
        simp [hk, hk', ih]
      · have ha' : ¬ k = a := fun h => ha h.symm
        simp [hk, ha', ih]

theorem lookupKV_delKV {α : Type} (m : List (String × α)) (key a : String) :
    lookupKV (delKV m key) a = if a = key then none else lookupKV m a := by
  induction m with
  | nil => simp [delKV]
  | cons p rest ih =>
    obtain ⟨k, v⟩ := p
    simp only [delKV, ne_eq, decide_not, List.filter_cons] at ih ⊢
    by_cases hk : k = key
    · subst hk
      by_cases ha : a = k
      · subst ha; simpa using ih
      · have ha' : ¬ k = a := fun h => ha h.symm
        simpa [ha, ha'] using ih
    · by_cases ha : a = k
      · subst ha
        have hk' : ¬ a = key := hk
        simp [hk, hk', ih]
      · have ha' : ¬ k = a := fun h => ha h.symm
        simp [hk, ha', ih]

theorem lookupKV_setKV {α : Type} (m : List (String × α)) (key a : String) (v : α) :
    lookupKV (setKV m key v) a = if a = key then some v else lookupKV m a := by
  induction m with
  | nil =>
    by_cases h : a = key
    · subst h; simp [setKV]
    · have h' : ¬ key = a := fun hh => h hh.symm
      simp [setKV, h, h']
  | cons p rest ih =>
    obtain ⟨k, w⟩ := p
    simp only [setKV] at ih ⊢
    by_cases hk : k = key
    · subst hk
      by_cases ha : a = k
      · subst ha; simp
      · have ha' : ¬ k = a := fun h => ha h.symm
        simp [ha, ha']
    · by_cases ha : a = k
      · subst ha
        have hk' : ¬ a = key := hk
        simp [hk, hk', ih]
      · have ha' : ¬ k = a := fun h => ha h.symm
        simp [hk, ha', ih]

@[simp] theorem lookupC_updC (st : GatewayState) (sid a : String) (f) :
    lookupC (updC st sid f) a =
      if a = sid then (lookupC st sid).map f else lookupC st a := by
  simp [lookupC, updC, lookupKV_mapKV]

@[simp] theorem lookupC_delC (st : GatewayState) (sid a : String) :
    lookupC (delC st sid) a = if a = sid then none else lookupC st a := by
  simp [lookupC, delC, lookupKV_delKV]

theorem lookupKV_isSome_of_mem {α : Type} {m : List (String × α)} {k : String}
    (h : k ∈ m.map Prod.fst) : (lookupKV m k).isSome := by
  induction m with
  | nil => simp at h
  | cons p rest ih =>
    obtain ⟨k0, v0⟩ := p
    by_cases hk : k0 = k
    · simp [hk]
    · have : k ∈ rest.map Prod.fst := by
        simp only [List.map_cons, List.mem_cons] at h
        rcases h with h | h
        · exact absurd h.symm hk
        · exact h
      simpa [hk] using ih this

theorem mem_of_lookupKV_some {α : Type} {m : List (String × α)} {k : String} {v : α}
    (h : lookupKV m k = some v) : k ∈ m.map Prod.fst := by
  induction m with
  | nil => simp [lookupKV] at h
  | cons p rest ih =>
    obtain ⟨k0, v0⟩ := p
    by_cases hk : k0 = k
    · simp [hk]
    · simp only [lookupKV_cons, if_neg hk] at h
      simp [ih h]

theorem hostEdgeOk_some_iff {st : GatewayState} {a b : String} :
    hostEdgeOk st a (some b) = true ↔
      ∃ cb, lookupC st b = some cb ∧ a ∈ cb.listeningAlong := by
  unfold hostEdgeOk
  cases h : lookupC st b with
  | none => simp [h]
  | some cb => simp [h]

theorem backEdgeOk_iff {st : GatewayState} {a f : String} :
    backEdgeOk st a f = true ↔
      ∃ cf, lookupC st f = some cf ∧ cf.listeningWith = some a := by
  unfold backEdgeOk
  cases h : lookupC st f with
  | none => simp
  | some cf => simp [h]

/-- Unpack the invariant at one registered session. -/
theorem inv_lookup {st : GatewayState} {a : String} {ca : ClientState}
    (h : inv st) (ha : lookupC st a = some ca) :
    hostEdgeOk st a ca.listeningWith = true ∧
      (∀ f ∈ ca.listeningAlong, backEdgeOk st a f = true) ∧
      ca.listeningAlong.Nodup := by
  have hmem : a ∈ st.clients.map Prod.fst := mem_of_lookupKV_some ha
  rw [List.mem_map] at hmem
  obtain ⟨p, hp, hpa⟩ := hmem
  have hall := (List.all_eq_true.mp h) p hp
  rw [hpa] at hall
  unfold clientOk at hall
  rw [ha] at hall
  simp only [Bool.and_eq_true, List.all_eq_true, decide_eq_true_iff] at hall
  exact ⟨hall.1.1, hall.1.2, hall.2⟩

/-- Establish the invariant by checking every registered session. -/
theorem inv_intro {st : GatewayState}
    (h : ∀ a ca, lookupC st a = some ca →
      hostEdgeOk st a ca.listeningWith = true ∧
        (∀ f ∈ ca.listeningAlong, backEdgeOk st a f = true) ∧
        ca.listeningAlong.Nodup) : inv st := by
  rw [inv, invB, List.all_eq_true]
  intro p hp
  unfold clientOk
  cases ha : lookupC st p.1 with
  | none => rfl
  | some ca =>
    obtain ⟨h1, h2, h3⟩ := h p.1 ca ha
    simp only [Bool.and_eq_true, List.all_eq_true, decide_eq_true_iff]
    exact ⟨⟨h1, h2⟩, h3⟩

/-! ## Listen-along invariant preservation -/

theorem hostEdgeOk_none (st : GatewayState) (a : String) :
    hostEdgeOk st a none = true := rfl

theorem hostEdgeOk_intro {st : GatewayState} {a b : String} {v : ClientState}
    (h : lookupC st b = some v) (hm : a ∈ v.listeningAlong) :
    hostEdgeOk st a (some b) = true :=
  hostEdgeOk_some_iff.mpr ⟨v, h, hm⟩

theorem backEdgeOk_intro {st : GatewayState} {a f : String} {w : ClientState}
    (h : lookupC st f = some w) (hl : w.listeningWith = some a) :
    backEdgeOk st a f = true :=
  backEdgeOk_iff.mpr ⟨w, h, hl⟩

/-- Branch equation: stopping for an unregistered session id. -/
theorem stopListeningAlong_eq_noclient {st : GatewayState} {sid : String} (b : Bool)
    (hc : lookupC st sid = none) : stopListeningAlong st sid b = (st, []) := by
  unfold stopListeningAlong
  rw [hc]

/-- Branch equation: the session has no host (`if (!this.listeningWith) return`). -/
theorem stopListeningAlong_eq_nohost {st : GatewayState} {sid : String} (b : Bool)
    {c : ClientState} (hc : lookupC st sid = some c) (hlw : c.listeningWith = none) :
    stopListeningAlong st sid b = (st, []) := by
  unfold stopListeningAlong
  rw [hc]
  dsimp only
  rw [hlw]

/-- Branch equation: the session follows `hid`; both edges are removed and
the null sync frame is sent when the host left. -/
theorem stopListeningAlong_eq_host {st : GatewayState} {sid : String} (b : Bool)
    {c : ClientState} {hid : String}
    (hc : lookupC st sid = some c) (hlw : c.listeningWith = some hid) :
    stopListeningAlong st sid b =
      (updC (updC st hid
          (fun h0 => { h0 with listeningAlong := h0.listeningAlong.erase sid })) sid
          (fun f0 => { f0 with listeningWith := none }),
       if b then [(sid, nullSyncFrame)] else []) := by
  unfold stopListeningAlong
  rw [hc]
  dsimp only
  rw [hlw]

/-- Core invariant step: removing one follower edge (both directions)
keeps the mutual-inverse invariant. -/
theorem stop_core_inv (st : GatewayState) (sid hid : String) (c : ClientState)
    (h : inv st) (hc : lookupC st sid = some c) (hlw : c.listeningWith = some hid) :
    inv (updC (updC st hid
        (fun h0 => { h0 with listeningAlong := h0.listeningAlong.erase sid })) sid
        (fun f0 => { f0 with listeningWith := none })) := by
  obtain ⟨hHost, hBack, hNodup⟩ := inv_lookup h hc
  rw [hlw] at hHost
  obtain ⟨ch, hch, hsidmem⟩ := hostEdgeOk_some_iff.mp hHost
  obtain ⟨hHostH, hBackH, hNodupH⟩ := inv_lookup h hch
  by_cases hsh : sid = hid
  · -- degenerate self-listening session: both edges removed together
    subst hsh
    rw [hc] at hch
    have hcc : c = ch := Option.some_inj.mp hch
    subst hcc
    have hlookup : ∀ x,
        lookupC (updC (updC st sid
            (fun h0 => { h0 with listeningAlong := h0.listeningAlong.erase sid })) sid
            (fun f0 => { f0 with listeningWith := none })) x =
          if x = sid then
            some { c with listeningAlong := c.listeningAlong.erase sid,
                          listeningWith := none }
          else lookupC st x := by
      intro x
      simp only [lookupC_updC]
      by_cases hx : x = sid
      · simp [hx, hc]
      · simp [hx]
    apply inv_intro
    intro a ca' ha'
    rw [hlookup] at ha'
    by_cases haa : a = sid
    · rw [if_pos haa] at ha'
      replace haa : sid = a := haa.symm
      subst haa
      have hca' := Option.some_inj.mp ha'
      refine ⟨?_, ?_, ?_⟩
      · rw [← hca']; exact hostEdgeOk_none _ _
      · intro f hf
        rw [← hca'] at hf
        dsimp only at hf
        have hf' := (List.Nodup.mem_erase_iff hNodup).mp hf
        obtain ⟨cf, hcf, hcfl⟩ := backEdgeOk_iff.mp (hBack f hf'.2)
        refine backEdgeOk_intro ?_ hcfl
        rw [hlookup, if_neg hf'.1]
        exact hcf
      · rw [← hca']; exact List.Nodup.erase _ hNodup
    · rw [if_neg haa] at ha'
      obtain ⟨hHa, hBa, hNa⟩ := inv_lookup h ha'
      refine ⟨?_, ?_, hNa⟩
      · cases hbw : ca'.listeningWith with
        | none => exact hostEdgeOk_none _ _
        | some b2 =>
          rw [hbw] at hHa
          obtain ⟨cb2, hcb2, hmem2⟩ := hostEdgeOk_some_iff.mp hHa
          by_cases hb2 : b2 = sid
          · replace hb2 : sid = b2 := hb2.symm
            subst hb2
            rw [hc] at hcb2
            have hcb2' := Option.some_inj.mp hcb2
            subst hcb2'
            refine hostEdgeOk_intro (v := { c with
              listeningAlong := c.listeningAlong.erase sid,
              listeningWith := none }) ?_ ?_
            · rw [hlookup, if_pos rfl]
            · exact (List.mem_erase_of_ne haa).mpr hmem2
          · refine hostEdgeOk_intro (v := cb2) ?_ hmem2
            rw [hlookup, if_neg hb2]
            exact hcb2
      · intro f hf
        obtain ⟨cf, hcf, hcfl⟩ := backEdgeOk_iff.mp (hBa f hf)
        have hfs : f ≠ sid := by
          intro hfe
          replace hfe : sid = f := hfe.symm
          subst hfe
          rw [hc] at hcf
          have hcf' := Option.some_inj.mp hcf
          subst hcf'
          rw [hlw] at hcfl
          exact haa (Option.some_inj.mp hcfl).symm
        refine backEdgeOk_intro ?_ hcfl
        rw [hlookup, if_neg hfs]
        exact hcf
  · -- distinct follower and host
    have hhs : hid ≠ sid := fun hh => hsh hh.symm
    have hlookup : ∀ x,
        lookupC (updC (updC st hid
            (fun h0 => { h0 with listeningAlong := h0.listeningAlong.erase sid })) sid
            (fun f0 => { f0 with listeningWith := none })) x =
          if x = sid then some { c with listeningWith := none }
          else if x = hid then
            some { ch with listeningAlong := ch.listeningAlong.erase sid }
          else lookupC st x := by
      intro x
      simp only [lookupC_updC]
      by_cases hx : x = sid
      · subst hx
        simp [hsh, hc]
      · by_cases hxh : x = hid
        · subst hxh
          simp [hx, hch]
        · simp [hx, hxh]
    apply inv_intro
    intro a ca' ha'
    rw [hlookup] at ha'
    by_cases haa : a = sid
    · rw [if_pos haa] at ha'
      replace haa : sid = a := haa.symm
      subst haa
      have hca' := Option.some_inj.mp ha'
      refine ⟨?_, ?_, ?_⟩
      · rw [← hca']; exact hostEdgeOk_none _ _
      · intro f hf
        rw [← hca'] at hf
        dsimp only at hf
        obtain ⟨cf, hcf, hcfl⟩ := backEdgeOk_iff.mp (hBack f hf)
        by_cases hfh : f = hid
        · replace hfh : hid = f := hfh.symm
          subst hfh
          rw [hch] at hcf
          have hcf' := Option.some_inj.mp hcf
          subst hcf'
          refine backEdgeOk_intro
            (w := { ch with listeningAlong := ch.listeningAlong.erase sid })
            ?_ hcfl
          rw [hlookup, if_neg hhs, if_pos rfl]
        · have hfs : f ≠ sid := by
            intro hfe
            replace hfe : sid = f := hfe.symm
            subst hfe
            rw [hc] at hcf
            have hcf' := Option.some_inj.mp hcf
            subst hcf'
            rw [hlw] at hcfl
            exact hsh (Option.some_inj.mp hcfl).symm
          refine backEdgeOk_intro ?_ hcfl
          rw [hlookup, if_neg hfs, if_neg hfh]
          exact hcf
      · rw [← hca']; exact hNodup
    · by_cases hah : a = hid
      · rw [if_neg haa, if_pos hah] at ha'
        replace hah : hid = a := hah.symm
        subst hah
        have hca' := Option.some_inj.mp ha'
        refine ⟨?_, ?_, ?_⟩
        · rw [← hca']
          dsimp only
          cases hbw : ch.listeningWith with
          | none => exact hostEdgeOk_none _ _
          | some b2 =>
            rw [hbw] at hHostH
            obtain ⟨cb2, hcb2, hmem2⟩ := hostEdgeOk_some_iff.mp hHostH
            by_cases hb2 : b2 = sid
            · replace hb2 : sid = b2 := hb2.symm
              subst hb2
              rw [hc] at hcb2
              have hcb2' := Option.some_inj.mp hcb2
              subst hcb2'
              refine hostEdgeOk_intro (v := { c with listeningWith := none }) ?_ hmem2
              rw [hlookup, if_pos rfl]
            · by_cases hb2h : b2 = hid
              · replace hb2h : hid = b2 := hb2h.symm
                subst hb2h
                rw [hch] at hcb2
                have hcb2' := Option.some_inj.mp hcb2
                subst hcb2'
                refine hostEdgeOk_intro
                  (v := { ch with listeningAlong := ch.listeningAlong.erase sid }) ?_ ?_
                · rw [hlookup, if_neg hhs, if_pos rfl]
                · exact (List.mem_erase_of_ne hhs).mpr hmem2
              · refine hostEdgeOk_intro (v := cb2) ?_ hmem2
                rw [hlookup, if_neg hb2, if_neg hb2h]
                exact hcb2
        · intro f hf
          rw [← hca'] at hf
          dsimp only at hf
          have hf' := (List.Nodup.mem_erase_iff hNodupH).mp hf
          obtain ⟨cf, hcf, hcfl⟩ := backEdgeOk_iff.mp (hBackH f hf'.2)
          by_cases hfh : f = hid
          · replace hfh : hid = f := hfh.symm
            subst hfh
            rw [hch] at hcf
            have hcf' := Option.some_inj.mp hcf
            subst hcf'
            refine backEdgeOk_intro
              (w := { ch with listeningAlong := ch.listeningAlong.erase sid })
              ?_ hcfl
            rw [hlookup, if_neg hhs, if_pos rfl]
          · refine backEdgeOk_intro ?_ hcfl
            rw [hlookup, if_neg hf'.1, if_neg hfh]
            exact hcf
        · rw [← hca']
          exact List.Nodup.erase _ hNodupH
      · rw [if_neg haa, if_neg hah] at ha'
        obtain ⟨hHa, hBa, hNa⟩ := inv_lookup h ha'
        refine ⟨?_, ?_, hNa⟩
        · cases hbw : ca'.listeningWith with
          | none => exact hostEdgeOk_none _ _
          | some b2 =>
            rw [hbw] at hHa
            obtain ⟨cb2, hcb2, hmem2⟩ := hostEdgeOk_some_iff.mp hHa
            by_cases hb2 : b2 = sid
            · replace hb2 : sid = b2 := hb2.symm
              subst hb2
              rw [hc] at hcb2
              have hcb2' := Option.some_inj.mp hcb2
              subst hcb2'
              refine hostEdgeOk_intro (v := { c with listeningWith := none }) ?_ hmem2
              rw [hlookup, if_pos rfl]
            · by_cases hb2h : b2 = hid
              · replace hb2h : hid = b2 := hb2h.symm
                subst hb2h
                rw [hch] at hcb2
                have hcb2' := Option.some_inj.mp hcb2
                subst hcb2'
                refine hostEdgeOk_intro
                  (v := { ch with listeningAlong := ch.listeningAlong.erase sid }) ?_ ?_
                · rw [hlookup, if_neg hhs, if_pos rfl]
                · exact (List.mem_erase_of_ne haa).mpr hmem2
              · refine hostEdgeOk_intro (v := cb2) ?_ hmem2
                rw [hlookup, if_neg hb2, if_neg hb2h]
                exact hcb2
        · intro f hf
          obtain ⟨cf, hcf, hcfl⟩ := backEdgeOk_iff.mp (hBa f hf)
          have hfs : f ≠ sid := by
            intro hfe
            replace hfe : sid = f := hfe.symm
            subst hfe
            rw [hc] at hcf
            have hcf' := Option.some_inj.mp hcf
            subst hcf'
            rw [hlw] at hcfl
            exact hah (Option.some_inj.mp hcfl).symm
          by_cases hfh : f = hid
          · replace hfh : hid = f := hfh.symm
            subst hfh
            rw [hch] at hcf
            have hcf' := Option.some_inj.mp hcf
            subst hcf'
            refine backEdgeOk_intro
              (w := { ch with listeningAlong := ch.listeningAlong.erase sid })
              ?_ hcfl
            rw [hlookup, if_neg hhs, if_pos rfl]
          · refine backEdgeOk_intro ?_ hcfl
            rw [hlookup, if_neg hfs, if_neg hfh]
            exact hcf

/-- Session updates do not change which ids are registered. -/
theorem isSome_lookupC_updC (st : GatewayState) (k : String)
    (f : ClientState → ClientState) (a : String) :
    (lookupC (updC st k f) a).isSome = (lookupC st a).isSome := by
  simp only [lookupC_updC]
  by_cases h : a = k
  · subst h
    cases lookupC st a <;> simp
  · simp [h]

/-- Full specification of the `handleClose` follower loop: with the
invariant, stopping every follower of `sid` (whose own `listeningWith` is
already clear) sends exactly one null sync frame per follower, empties
`sid`\'s `listeningAlong`, clears every follower\'s `listeningWith`,
touches no registry other than `clients`, keeps the registered id set, and
never sets a `listeningWith` that was not already set. -/
theorem stopAll_spec (fs : List String) :
    ∀ (st : GatewayState) (sid : String) (c : ClientState),
      inv st → lookupC st sid = some c → c.listeningWith = none →
      c.listeningAlong = fs →
      inv (stopAll st fs).1 ∧
      lookupC (stopAll st fs).1 sid = some { c with listeningAlong := [] } ∧
      (stopAll st fs).2 = fs.map (fun f => (f, nullSyncFrame)) ∧
      (∀ f ∈ fs, ∃ cf', lookupC (stopAll st fs).1 f = some cf' ∧
        cf'.listeningWith = none) ∧
      (stopAll st fs).1.users = st.users ∧
      (stopAll st fs).1.onlineUsers = st.onlineUsers ∧
      (stopAll st fs).1.recentUsers = st.recentUsers ∧
      (stopAll st fs).1.hasBot = st.hasBot ∧
      (stopAll st fs).1.pending = st.pending ∧
      (∀ a, (lookupC (stopAll st fs).1 a).isSome = (lookupC st a).isSome) ∧
      (∀ a ca ca', lookupC st a = some ca → lookupC (stopAll st fs).1 a = some ca' →
        ca'.listeningWith = ca.listeningWith ∨ ca'.listeningWith = none) := by
  induction fs with
  | nil =>
    intro st sid c hinv hc hlw hfs
    have hceq : ({ c with listeningAlong := [] } : ClientState) = c := by
      rw [← hfs]
    refine ⟨hinv, ?_, rfl, ?_, rfl, rfl, rfl, rfl, rfl, fun a => rfl, ?_⟩
    · rw [hceq]; exact hc
    · intro f hf; simp at hf
    · intro a ca ca' h1 h2
      have h2' : lookupC st a = some ca' := h2
      rw [h1] at h2'
      left
      rw [Option.some_inj.mp h2']
  | cons f rest ih =>
    intro st sid c hinv hc hlw hfs
    -- the head follower is registered and points back at `sid`
    have hfmem : f ∈ c.listeningAlong := by rw [hfs]; exact List.mem_cons_self _ _
    obtain ⟨_, hBack, hNodup⟩ := inv_lookup hinv hc
    obtain ⟨cf, hcf, hcfl⟩ := backEdgeOk_iff.mp (hBack f hfmem)
    have hfsid : f ≠ sid := by
      intro hfe
      replace hfe : sid = f := hfe.symm
      subst hfe
      rw [hc] at hcf
      have hcf' := Option.some_inj.mp hcf
      subst hcf'
      rw [hlw] at hcfl
      exact Option.noConfusion hcfl
    -- one unfolding of the loop
    have hstep : stopAll st (f :: rest) =
        (let r1 := stopListeningAlong st f true
         let r2 := stopAll r1.1 rest
         (r2.1, r1.2 ++ r2.2)) := rfl
    rw [hstep]
    rw [stopListeningAlong_eq_host true hcf hcfl]
    dsimp only
    set st2 := updC (updC st sid
        (fun h0 => { h0 with listeningAlong := h0.listeningAlong.erase f })) f
        (fun f0 => { f0 with listeningWith := none }) with hst2
    -- the invariant survives the head stop
    have hinv2 : inv st2 := stop_core_inv st f sid cf hinv hcf hcfl
    -- `sid`\'s entry after the head stop
    have hsf : ¬ sid = f := fun hh => hfsid hh.symm
    have hsid2 : lookupC st2 sid = some { c with listeningAlong := rest } := by
      rw [hst2]
      simp [lookupC_updC, hsf, hc, hfs, List.erase_cons_head]
    have hlw2 : ({ c with listeningAlong := rest } : ClientState).listeningWith = none := hlw
    have hih := ih st2 sid { c with listeningAlong := rest } hinv2 hsid2 hlw2 rfl
    obtain ⟨ih1, ih2, ih3, ih4, ih5, ih6, ih7, ih8, ih9, ih10, ih11⟩ := hih
    -- the head follower\'s entry after the head stop
    have hf2 : lookupC st2 f = some { cf with listeningWith := none } := by
      rw [hst2]
      simp [lookupC_updC, hfsid, hcf]
    refine ⟨ih1, ?_, ?_, ?_, ?_, ?_, ?_, ?_, ?_, ?_, ?_⟩
    · simpa using ih2
    · rw [ih3]
      simp
    · intro g hg
      rcases List.mem_cons.mp hg with rfl | hg
      · -- the head follower stays cleared through the remaining stops
        have hsome : (lookupC (stopAll st2 rest).1 g).isSome = true := by
          rw [ih10, hf2]; rfl
        obtain ⟨cg, hcg⟩ := Option.isSome_iff_exists.mp hsome
        refine ⟨cg, hcg, ?_⟩
        rcases ih11 g { cf with listeningWith := none } cg hf2 hcg with hsame | hnone
        · simpa using hsame
        · exact hnone
      · exact ih4 g hg
    · rw [ih5, hst2]; rfl
    · rw [ih6, hst2]; rfl
    · rw [ih7, hst2]; rfl
    · rw [ih8, hst2]; rfl
    · rw [ih9, hst2]; rfl
    · intro a
      rw [ih10 a, hst2, isSome_lookupC_updC, isSome_lookupC_updC]
    · intro a ca ca' h1 h2
      -- compute `a`\'s entry in the intermediate state
      by_cases haf : a = f
      · subst haf
        rw [hcf] at h1
        have hca := Option.some_inj.mp h1
        subst hca
        rcases ih11 a { cf with listeningWith := none } ca' hf2 h2 with hsame | hnone
        · right; simpa using hsame
        · right; exact hnone
      · by_cases has : a = sid
        · replace has : sid = a := has.symm
          subst has
          rw [hc] at h1
          have hca := Option.some_inj.mp h1
          subst hca
          rcases ih11 sid { c with listeningAlong := rest } ca' hsid2 h2 with hsame | hnone
          · left; simpa using hsame
          · right; exact hnone
        · have ha2 : lookupC st2 a = some ca := by
            rw [hst2]
            simp only [lookupC_updC, if_neg haf, if_neg has]
            exact h1
          exact ih11 a ca ca' ha2 h2

/-- `stopListeningAlong` preserves the mutual-inverse invariant. -/
theorem stopListeningAlong_inv (st : GatewayState) (sid : String) (bLeft : Bool)
    (h : inv st) : inv (stopListeningAlong st sid bLeft).1 := by
  cases hc : lookupC st sid with
  | none => rw [stopListeningAlong_eq_noclient bLeft hc]; exact h
  | some c =>
    cases hlw : c.listeningWith with
    | none => rw [stopListeningAlong_eq_nohost bLeft hc hlw]; exact h
    | some hid =>
      rw [stopListeningAlong_eq_host bLeft hc hlw]
      exact stop_core_inv st sid hid c h hc hlw

/-- Branch equation for `closeTeardown`: no own follow edge. -/
theorem closeTeardown_eq_nohost {st : GatewayState} {sid : String} {c : ClientState}
    (hc : lookupC st sid = some c) (hlw : c.listeningWith = none) :
    closeTeardown st sid = stopAll st c.listeningAlong := by
  unfold closeTeardown
  rw [hc]
  dsimp only
  rw [hlw]
  simp [hc]

/-- Branch equation for `closeTeardown`: the closing session follows a
distinct host `hid`; its own edge is dropped first, then the snapshot of
its followers is stopped. -/
theorem closeTeardown_eq_host {st : GatewayState} {sid hid : String} {c : ClientState}
    (hc : lookupC st sid = some c) (hlw : c.listeningWith = some hid)
    (hne : ¬ sid = hid) :
    closeTeardown st sid =
      stopAll (updC (updC st hid
          (fun h0 => { h0 with listeningAlong := h0.listeningAlong.erase sid })) sid
          (fun f0 => { f0 with listeningWith := none })) c.listeningAlong := by
  have hs : lookupC (updC (updC st hid
      (fun h0 => { h0 with listeningAlong := h0.listeningAlong.erase sid })) sid
      (fun f0 => { f0 with listeningWith := none })) sid =
      some { c with listeningWith := none } := by
    simp [lookupC_updC, hne, hc]
  unfold closeTeardown
  rw [hc]
  dsimp only
  rw [hlw, stopListeningAlong_eq_host false hc hlw]
  simp [hs]

/-- Branch equation for `closeTeardown`: the closing session follows
itself (degenerate); the self edge goes first, the snapshot is the rest. -/
theorem closeTeardown_eq_self {st : GatewayState} {sid : String} {c : ClientState}
    (hc : lookupC st sid = some c) (hlw : c.listeningWith = some sid) :
    closeTeardown st sid =
      stopAll (updC (updC st sid
          (fun h0 => { h0 with listeningAlong := h0.listeningAlong.erase sid })) sid
          (fun f0 => { f0 with listeningWith := none })) (c.listeningAlong.erase sid) := by
  have hs : lookupC (updC (updC st sid
      (fun h0 => { h0 with listeningAlong := h0.listeningAlong.erase sid })) sid
      (fun f0 => { f0 with listeningWith := none })) sid =
      some { c with listeningAlong := c.listeningAlong.erase sid,
                    listeningWith := none } := by
    simp [lookupC_updC, hc]
  unfold closeTeardown
  rw [hc]
  dsimp only
  rw [hlw, stopListeningAlong_eq_host false hc hlw]
  simp [hs]

/-- Full listen-along teardown of `handleClose`: frames, final edges and
untouched registries, under the invariant. -/
theorem closeTeardown_spec (st : GatewayState) (sid : String) (c : ClientState)
    (hinv : inv st) (hc : lookupC st sid = some c) :
    ∃ fs0,
      (closeTeardown st sid).2 = fs0.map (fun f => (f, nullSyncFrame)) ∧
      (sid ∉ c.listeningAlong → fs0 = c.listeningAlong) ∧
      fs0.Nodup ∧
      inv (closeTeardown st sid).1 ∧
      (∃ c', lookupC (closeTeardown st sid).1 sid = some c' ∧
        c'.listeningAlong = [] ∧ c'.listeningWith = none) ∧
      (∀ f ∈ fs0, ∃ cf', lookupC (closeTeardown st sid).1 f = some cf' ∧
        cf'.listeningWith = none) ∧
      (closeTeardown st sid).1.users = st.users ∧
      (closeTeardown st sid).1.onlineUsers = st.onlineUsers ∧
      (closeTeardown st sid).1.recentUsers = st.recentUsers ∧
      (closeTeardown st sid).1.hasBot = st.hasBot ∧
      (closeTeardown st sid).1.pending = st.pending ∧
      (∀ a, (lookupC (closeTeardown st sid).1 a).isSome = (lookupC st a).isSome) := by
  obtain ⟨hHost, hBack, hNodup⟩ := inv_lookup hinv hc
  cases hlw : c.listeningWith with
  | none =>
    rw [closeTeardown_eq_nohost hc hlw]
    obtain ⟨s1, s2, s3, s4, s5, s6, s7, s8, s9, s10, s11⟩ :=
      stopAll_spec c.listeningAlong st sid c hinv hc hlw rfl
    exact ⟨c.listeningAlong, s3, fun _ => rfl, hNodup, s1,
      ⟨_, s2, rfl, hlw⟩, s4, s5, s6, s7, s8, s9, s10⟩
  | some hid =>
    by_cases hsh : sid = hid
    · -- the closing session follows itself
      subst hsh
      rw [closeTeardown_eq_self hc hlw]
      have hinv3 := stop_core_inv st sid sid c hinv hc hlw
      have hs3 : lookupC (updC (updC st sid
          (fun h0 => { h0 with listeningAlong := h0.listeningAlong.erase sid })) sid
          (fun f0 => { f0 with listeningWith := none })) sid =
          some { c with listeningAlong := c.listeningAlong.erase sid,
                        listeningWith := none } := by
        simp [lookupC_updC, hc]
      obtain ⟨s1, s2, s3, s4, s5, s6, s7, s8, s9, s10, s11⟩ :=
        stopAll_spec (c.listeningAlong.erase sid) _ sid
          { c with listeningAlong := c.listeningAlong.erase sid, listeningWith := none }
          hinv3 hs3 rfl rfl
      refine ⟨c.listeningAlong.erase sid, s3, ?_, List.Nodup.erase _ hNodup, s1,
        ⟨_, s2, rfl, rfl⟩, s4, ?_, ?_, ?_, ?_, ?_, ?_⟩
      · intro hnm
        exact List.erase_of_not_mem hnm
      · rw [s5]; rfl
      · rw [s6]; rfl
      · rw [s7]; rfl
      · rw [s8]; rfl
      · rw [s9]; rfl
      · intro a
        rw [s10 a, isSome_lookupC_updC, isSome_lookupC_updC]
    · -- the closing session follows a distinct host
      rw [closeTeardown_eq_host hc hlw hsh]
      have hinv3 := stop_core_inv st sid hid c hinv hc hlw
      have hs3 : lookupC (updC (updC st hid
          (fun h0 => { h0 with listeningAlong := h0.listeningAlong.erase sid })) sid
          (fun f0 => { f0 with listeningWith := none })) sid =
          some { c with listeningWith := none } := by
        simp [lookupC_updC, hsh, hc]
      obtain ⟨s1, s2, s3, s4, s5, s6, s7, s8, s9, s10, s11⟩ :=
        stopAll_spec c.listeningAlong _ sid
          { c with listeningWith := none } hinv3 hs3 rfl rfl
      refine ⟨c.listeningAlong, s3, fun _ => rfl, hNodup, s1,
        ⟨_, s2, rfl, rfl⟩, s4, ?_, ?_, ?_, ?_, ?_, ?_⟩
      · rw [s5]; rfl
      · rw [s6]; rfl
      · rw [s7]; rfl
      · rw [s8]; rfl
      · rw [s9]; rfl
      · intro a
        rw [s10 a, isSome_lookupC_updC, isSome_lookupC_updC]

/-- Deleting an edge-free session preserves the invariant. -/
theorem delC_inv (st : GatewayState) (sid : String) (c : ClientState)
    (hinv : inv st) (hc : lookupC st sid = some c)
    (hla : c.listeningAlong = []) (hlw : c.listeningWith = none) :
    inv (delC st sid) := by
  apply inv_intro
  intro a ca' ha'
  rw [lookupC_delC] at ha'
  by_cases has : a = sid
  · rw [if_pos has] at ha'
    exact Option.noConfusion ha'
  · rw [if_neg has] at ha'
    obtain ⟨hH, hB, hN⟩ := inv_lookup hinv ha'
    refine ⟨?_, ?_, hN⟩
    · cases hbw : ca'.listeningWith with
      | none => exact hostEdgeOk_none _ _
      | some b2 =>
        rw [hbw] at hH
        obtain ⟨cb2, hcb2, hm2⟩ := hostEdgeOk_some_iff.mp hH
        have hb2 : b2 ≠ sid := by
          intro hbe
          replace hbe : sid = b2 := hbe.symm
          subst hbe
          rw [hc] at hcb2
          have hcb2e := Option.some_inj.mp hcb2
          subst hcb2e
          rw [hla] at hm2
          simp at hm2
        refine hostEdgeOk_intro ?_ hm2
        rw [lookupC_delC, if_neg hb2]
        exact hcb2
    · intro f hf
      obtain ⟨cf, hcf, hcfl⟩ := backEdgeOk_iff.mp (hB f hf)
      have hfs : f ≠ sid := by
        intro hfe
        replace hfe : sid = f := hfe.symm
        subst hfe
        rw [hc] at hcf
        have hcfe := Option.some_inj.mp hcf
        subst hcfe
        rw [hlw] at hcfl
        exact Option.noConfusion hcfl
      refine backEdgeOk_intro ?_ hcfl
      rw [lookupC_delC, if_neg hfs]
      exact hcf

/-- The invariant depends only on the connection registry. -/
theorem inv_clients_eq {st st' : GatewayState} (h : st'.clients = st.clients)
    (hinv : inv st) : inv st' := by
  have hl : ∀ a, lookupC st' a = lookupC st a := fun a => by
    rw [lookupC, lookupC, h]
  apply inv_intro
  intro a ca ha
  rw [hl] at ha
  obtain ⟨h1, h2, h3⟩ := inv_lookup hinv ha
  refine ⟨?_, ?_, h3⟩
  · cases hbw : ca.listeningWith with
    | none => exact hostEdgeOk_none _ _
    | some b =>
      rw [hbw] at h1
      obtain ⟨cb, hcb, hm⟩ := hostEdgeOk_some_iff.mp h1
      refine hostEdgeOk_intro ?_ hm
      rw [hl]
      exact hcb
  · intro f hf
    obtain ⟨cf, hcf, hlwf⟩ := backEdgeOk_iff.mp (h2 f hf)
    refine backEdgeOk_intro ?_ hlwf
    rw [hl]
    exact hcf

/-! ## `handleClose` branch equations -/

theorem handleClose_eq_noclient {st : GatewayState} {sid : String}
    (dbUsers : List (String × User)) (now : Int) (hc : lookupC st sid = none) :
    handleClose st sid dbUsers now = (st, []) := by
  unfold handleClose
  rw [hc]

theorem handleClose_eq_anon {st : GatewayState} {sid : String} {c : ClientState}
    (dbUsers : List (String × User)) (now : Int)
    (hc : lookupC st sid = some c) (hu : c.userId = none) :
    handleClose st sid dbUsers now =
      (delC (closeTeardown st sid).1 sid, (closeTeardown st sid).2) := by
  unfold handleClose
  rw [hc]
  dsimp only
  rw [hu]

theorem handleClose_eq_nosess {st : GatewayState} {sid : String} {c : ClientState}
    {uid : String} (dbUsers : List (String × User)) (now : Int)
    (hc : lookupC st sid = some c) (hu : c.userId = some uid)
    (hsess : lookupKV (closeTeardown st sid).1.users uid = none) :
    handleClose st sid dbUsers now =
      (delC (closeTeardown st sid).1 sid, (closeTeardown st sid).2) := by
  unfold handleClose
  rw [hc]
  dsimp only
  rw [hu]
  dsimp only [delC]
  rw [hsess]

theorem handleClose_eq_full {st : GatewayState} {sid : String} {c : ClientState}
    {uid : String} {sessions : List String}
    (dbUsers : List (String × User)) (now : Int)
    (hc : lookupC st sid = some c) (hu : c.userId = some uid)
    (hsess : lookupKV (closeTeardown st sid).1.users uid = some sessions) :
    handleClose st sid dbUsers now =
      (let st2 := delC (closeTeardown st sid).1 sid
       let st3 :=
         if lookupKV st2.recentUsers uid = none ∧ c.listeningTo.isSome then
           match lookupKV dbUsers uid with
           | none => st2
           | some user =>
             { st2 with recentUsers := setKV st2.recentUsers uid (mkOfflineUser c user now) }
         else st2
       let st4 := { st3 with onlineUsers := delKV st3.onlineUsers uid }
       let st5 :=
         if sessions.length < 2 then { st4 with users := delKV st4.users uid }
         else { st4 with users := setKV st4.users uid (removeSession sessions sid) }
       (st5, (closeTeardown st sid).2)) := by
  unfold handleClose
  rw [hc]
  dsimp only
  rw [hu]
  dsimp only [delC]
  rw [hsess]

/-- `handleClose` preserves the listen-along invariant. -/
theorem handleClose_inv (st : GatewayState) (sid : String)
    (dbUsers : List (String × User)) (now : Int) (hinv : inv st) :
    inv (handleClose st sid dbUsers now).1 := by
  cases hc : lookupC st sid with
  | none =>
    rw [handleClose_eq_noclient dbUsers now hc]
    exact hinv
  | some c =>
    obtain ⟨fs0, t1, t2, t3, t4, t5, t6, t7, t8, t9, t10, t11, t12⟩ :=
      closeTeardown_spec st sid c hinv hc
    obtain ⟨c', hc', hla', hlw'⟩ := t5
    have hdel : inv (delC (closeTeardown st sid).1 sid) :=
      delC_inv _ _ _ t4 hc' hla' hlw'
    cases hu : c.userId with
    | none =>
      rw [handleClose_eq_anon dbUsers now hc hu]
      exact hdel
    | some uid =>
      cases hsess : lookupKV (closeTeardown st sid).1.users uid with
      | none =>
        rw [handleClose_eq_nosess dbUsers now hc hu hsess]
        exact hdel
      | some sessions =>
        rw [handleClose_eq_full dbUsers now hc hu hsess]
        dsimp only
        apply inv_clients_eq _ hdel
        split_ifs <;>
          first
            | rfl
            | (cases lookupKV dbUsers uid <;> rfl)

/-! ## `listenAlong` and the invariant -/

theorem mem_insertKey_self (l : List String) (k : String) : k ∈ insertKey l k := by
  unfold insertKey
  split_ifs with h
  · exact h
  · exact List.mem_append_right _ (List.mem_singleton.mpr rfl)

theorem mem_insertKey_of_mem {l : List String} {k a : String} (h : a ∈ l) :
    a ∈ insertKey l k := by
  unfold insertKey
  split_ifs
  · exact h
  · exact List.mem_append_left _ h

theorem mem_insertKey_iff {l : List String} {k a : String} :
    a ∈ insertKey l k ↔ a ∈ l ∨ a = k := by
  unfold insertKey
  split_ifs with h
  · constructor
    · intro hm; exact Or.inl hm
    · intro hm
      rcases hm with hm | rfl
      · exact hm
      · exact h
  · simp [List.mem_append]

theorem nodup_insertKey {l : List String} {k : String} (h : l.Nodup) :
    (insertKey l k).Nodup := by
  unfold insertKey
  split_ifs with hk
  · exact h
  · simp [List.nodup_append, h, hk]

/-- Branch equation: `listenAlong` on two registered sessions. -/
theorem listenAlong_eq {st : GatewayState} {fid hid : String}
    {cf ch : ClientState}
    (hcf : lookupC st fid = some cf) (hch : lookupC st hid = some ch) :
    listenAlong st fid hid =
      (updC (updC st hid
          (fun h0 => { h0 with listeningAlong := insertKey h0.listeningAlong fid })) fid
          (fun f0 => { f0 with listeningWith := some hid }),
       syncWith (updC (updC st hid
          (fun h0 => { h0 with listeningAlong := insertKey h0.listeningAlong fid })) fid
          (fun f0 => { f0 with listeningWith := some hid })) fid true) := by
  unfold listenAlong
  rw [hcf, hch]

/-- `listenAlong` preserves the invariant when the follower has no host
yet, or re-targets the host it already follows.  (The counterexample for
C4 shows the remaining case — a different existing host — breaks it.) -/
theorem listenAlong_inv (st : GatewayState) (fid hid : String)
    (cf ch : ClientState) (hinv : inv st)
    (hcf : lookupC st fid = some cf) (hch : lookupC st hid = some ch)
    (hfree : cf.listeningWith = none ∨ cf.listeningWith = some hid) :
    inv (listenAlong st fid hid).1 := by
  rw [listenAlong_eq hcf hch]
  dsimp only
  by_cases hfh : fid = hid
  · -- degenerate self-listen
    subst hfh
    rw [hcf] at hch
    have hcc : cf = ch := Option.some_inj.mp hch
    subst hcc
    have hlookup : ∀ x,
        lookupC (updC (updC st fid
            (fun h0 => { h0 with listeningAlong := insertKey h0.listeningAlong fid })) fid
            (fun f0 => { f0 with listeningWith := some fid })) x =
          if x = fid then
            some { cf with listeningAlong := insertKey cf.listeningAlong fid,
                           listeningWith := some fid }
          else lookupC st x := by
      intro x
      simp only [lookupC_updC]
      by_cases hx : x = fid
      · simp [hx, hcf]
      · simp [hx]
    obtain ⟨hH, hB, hN⟩ := inv_lookup hinv hcf
    apply inv_intro
    intro a ca' ha'
    rw [hlookup] at ha'
    by_cases haa : a = fid
    · rw [if_pos haa] at ha'
      replace haa : fid = a := haa.symm
      subst haa
      have hca' := Option.some_inj.mp ha'
      refine ⟨?_, ?_, ?_⟩
      · rw [← hca']
        dsimp only
        refine hostEdgeOk_intro (v := { cf with
          listeningAlong := insertKey cf.listeningAlong fid,
          listeningWith := some fid }) ?_ (mem_insertKey_self _ _)
        rw [hlookup, if_pos rfl]
      · intro f hf
        rw [← hca'] at hf
        dsimp only at hf
        by_cases hffid : f = fid
        · replace hffid : fid = f := hffid.symm
          subst hffid
          refine backEdgeOk_intro (w := { cf with
            listeningAlong := insertKey cf.listeningAlong fid,
            listeningWith := some fid }) ?_ rfl
          rw [hlookup, if_pos rfl]
        · rcases mem_insertKey_iff.mp hf with hfm | hfe
          · obtain ⟨cff, hcff, hcffl⟩ := backEdgeOk_iff.mp (hB f hfm)
            refine backEdgeOk_intro ?_ hcffl
            rw [hlookup, if_neg hffid]
            exact hcff
          · exact absurd hfe hffid
      · rw [← hca']
        exact nodup_insertKey hN
    · rw [if_neg haa] at ha'
      obtain ⟨hHa, hBa, hNa⟩ := inv_lookup hinv ha'
      refine ⟨?_, ?_, hNa⟩
      · cases hbw : ca'.listeningWith with
        | none => exact hostEdgeOk_none _ _
        | some b2 =>
          rw [hbw] at hHa
          obtain ⟨cb2, hcb2, hm2⟩ := hostEdgeOk_some_iff.mp hHa
          by_cases hb2 : b2 = fid
          · replace hb2 : fid = b2 := hb2.symm
            subst hb2
            rw [hcf] at hcb2
            have hce := Option.some_inj.mp hcb2
            subst hce
            refine hostEdgeOk_intro (v := { cf with
              listeningAlong := insertKey cf.listeningAlong fid,
              listeningWith := some fid }) ?_ (mem_insertKey_of_mem hm2)
            rw [hlookup, if_pos rfl]
          · refine hostEdgeOk_intro (v := cb2) ?_ hm2
            rw [hlookup, if_neg hb2]
            exact hcb2
      · intro f hf
        obtain ⟨cff, hcff, hcffl⟩ := backEdgeOk_iff.mp (hBa f hf)
        have hffid : f ≠ fid := by
          intro hfe
          replace hfe : fid = f := hfe.symm
          subst hfe
          rw [hcf] at hcff
          have hce := Option.some_inj.mp hcff
          subst hce
          rcases hfree with hh | hh
          · rw [hh] at hcffl; exact Option.noConfusion hcffl
          · rw [hh] at hcffl
            exact haa (Option.some_inj.mp hcffl).symm
        refine backEdgeOk_intro ?_ hcffl
        rw [hlookup, if_neg hffid]
        exact hcff
  · -- distinct follower and host
    have hhf : hid ≠ fid := fun hh => hfh hh.symm
    have hlookup : ∀ x,
        lookupC (updC (updC st hid
            (fun h0 => { h0 with listeningAlong := insertKey h0.listeningAlong fid })) fid
            (fun f0 => { f0 with listeningWith := some hid })) x =
          if x = fid then some { cf with listeningWith := some hid }
          else if x = hid then
            some { ch with listeningAlong := insertKey ch.listeningAlong fid }
          else lookupC st x := by
      intro x
      simp only [lookupC_updC]
      by_cases hx : x = fid
      · simp [hx, hfh, hcf]
      · by_cases hxh : x = hid
        · simp [hx, hxh, hch, hhf]
        · simp [hx, hxh]
    obtain ⟨hHf, hBf, hNf⟩ := inv_lookup hinv hcf
    obtain ⟨hHh, hBh, hNh⟩ := inv_lookup hinv hch
    apply inv_intro
    intro a ca' ha'
    rw [hlookup] at ha'
    by_cases haa : a = fid
    · rw [if_pos haa] at ha'
      replace haa : fid = a := haa.symm
      subst haa
      have hca' := Option.some_inj.mp ha'
      refine ⟨?_, ?_, ?_⟩
      · rw [← hca']
        dsimp only
        refine hostEdgeOk_intro (v := { ch with
          listeningAlong := insertKey ch.listeningAlong fid }) ?_
          (mem_insertKey_self _ _)
        rw [hlookup, if_neg hhf, if_pos rfl]
      · intro f hf
        rw [← hca'] at hf
        dsimp only at hf
        obtain ⟨cff, hcff, hcffl⟩ := backEdgeOk_iff.mp (hBf f hf)
        have hffid : f ≠ fid := by
          intro hfe
          replace hfe : fid = f := hfe.symm
          subst hfe
          rw [hcf] at hcff
          have hce := Option.some_inj.mp hcff
          subst hce
          rcases hfree with hh | hh
          · rw [hh] at hcffl; exact Option.noConfusion hcffl
          · rw [hh] at hcffl
            exact hfh (Option.some_inj.mp hcffl).symm
        by_cases hfhid : f = hid
        · replace hfhid : hid = f := hfhid.symm
          subst hfhid
          rw [hch] at hcff
          have hce := Option.some_inj.mp hcff
          subst hce
          refine backEdgeOk_intro (w := { ch with
            listeningAlong := insertKey ch.listeningAlong fid }) ?_ hcffl
          rw [hlookup, if_neg hhf, if_pos rfl]
        · refine backEdgeOk_intro ?_ hcffl
          rw [hlookup, if_neg hffid, if_neg hfhid]
          exact hcff
      · rw [← hca']
        exact hNf
    · by_cases hah : a = hid
      · rw [if_neg haa, if_pos hah] at ha'
        replace hah : hid = a := hah.symm
        subst hah
        have hca' := Option.some_inj.mp ha'
        refine ⟨?_, ?_, ?_⟩
        · rw [← hca']
          dsimp only
          cases hbw : ch.listeningWith with
          | none => exact hostEdgeOk_none _ _
          | some b2 =>
            rw [hbw] at hHh
            obtain ⟨cb2, hcb2, hm2⟩ := hostEdgeOk_some_iff.mp hHh
            by_cases hb2 : b2 = fid
            · replace hb2 : fid = b2 := hb2.symm
              subst hb2
              rw [hcf] at hcb2
              have hce := Option.some_inj.mp hcb2
              subst hce
              refine hostEdgeOk_intro
                (v := { cf with listeningWith := some hid }) ?_ hm2
              rw [hlookup, if_pos rfl]
            · by_cases hb2h : b2 = hid
              · replace hb2h : hid = b2 := hb2h.symm
                subst hb2h
                rw [hch] at hcb2
                have hce := Option.some_inj.mp hcb2
                subst hce
                refine hostEdgeOk_intro (v := { ch with
                  listeningAlong := insertKey ch.listeningAlong fid }) ?_
                  (mem_insertKey_of_mem hm2)
                rw [hlookup, if_neg hhf, if_pos rfl]
              · refine hostEdgeOk_intro (v := cb2) ?_ hm2
                rw [hlookup, if_neg hb2, if_neg hb2h]
                exact hcb2
        · intro f hf
          rw [← hca'] at hf
          dsimp only at hf
          by_cases hffid : f = fid
          · replace hffid : fid = f := hffid.symm
            subst hffid
            refine backEdgeOk_intro
              (w := { cf with listeningWith := some hid }) ?_ rfl
            rw [hlookup, if_pos rfl]
          · rcases mem_insertKey_iff.mp hf with hfm | hfe
            · obtain ⟨cff, hcff, hcffl⟩ := backEdgeOk_iff.mp (hBh f hfm)
              by_cases hfhid : f = hid
              · replace hfhid : hid = f := hfhid.symm
                subst hfhid
                rw [hch] at hcff
                have hce := Option.some_inj.mp hcff
                subst hce
                refine backEdgeOk_intro (w := { ch with
                  listeningAlong := insertKey ch.listeningAlong fid }) ?_ hcffl
                rw [hlookup, if_neg hhf, if_pos rfl]
              · refine backEdgeOk_intro ?_ hcffl
                rw [hlookup, if_neg hffid, if_neg hfhid]
                exact hcff
            · exact absurd hfe hffid
        · rw [← hca']
          exact nodup_insertKey hNh
      · rw [if_neg haa, if_neg hah] at ha'
        obtain ⟨hHa, hBa, hNa⟩ := inv_lookup hinv ha'
        refine ⟨?_, ?_, hNa⟩
        · cases hbw : ca'.listeningWith with
          | none => exact hostEdgeOk_none _ _
          | some b2 =>
            rw [hbw] at hHa
            obtain ⟨cb2, hcb2, hm2⟩ := hostEdgeOk_some_iff.mp hHa
            by_cases hb2 : b2 = fid
            · replace hb2 : fid = b2 := hb2.symm
              subst hb2
              rw [hcf] at hcb2
              have hce := Option.some_inj.mp hcb2
              subst hce
              refine hostEdgeOk_intro
                (v := { cf with listeningWith := some hid }) ?_ hm2
              rw [hlookup, if_pos rfl]
            · by_cases hb2h : b2 = hid
              · replace hb2h : hid = b2 := hb2h.symm
                subst hb2h
                rw [hch] at hcb2
                have hce := Option.some_inj.mp hcb2
                subst hce
                refine hostEdgeOk_intro (v := { ch with
                  listeningAlong := insertKey ch.listeningAlong fid }) ?_
                  (mem_insertKey_of_mem hm2)
                rw [hlookup, if_neg hhf, if_pos rfl]
              · refine hostEdgeOk_intro (v := cb2) ?_ hm2
                rw [hlookup, if_neg hb2, if_neg hb2h]
                exact hcb2
        · intro f hf
          obtain ⟨cff, hcff, hcffl⟩ := backEdgeOk_iff.mp (hBa f hf)
          have hffid : f ≠ fid := by
            intro hfe
            replace hfe : fid = f := hfe.symm
            subst hfe
            rw [hcf] at hcff
            have hce := Option.some_inj.mp hcff
            subst hce
            rcases hfree with hh | hh
            · rw [hh] at hcffl; exact Option.noConfusion hcffl
            · rw [hh] at hcffl
              exact hah (Option.some_inj.mp hcffl).symm
          by_cases hfhid : f = hid
          · replace hfhid : hid = f := hfhid.symm
            subst hfhid
            rw [hch] at hcff
            have hce := Option.some_inj.mp hcff
            subst hce
            refine backEdgeOk_intro (w := { ch with
              listeningAlong := insertKey ch.listeningAlong fid }) ?_ hcffl
            rw [hlookup, if_neg hhf, if_pos rfl]
          · refine backEdgeOk_intro ?_ hcffl
            rw [hlookup, if_neg hffid, if_neg hfhid]
            exact hcff

/-! ## Registry preservation (independent of the invariant) -/

/-- Stopping an edge never touches the non-client registries. -/
theorem stopListeningAlong_registries (st : GatewayState) (sid : String) (b : Bool) :
    (stopListeningAlong st sid b).1.users = st.users ∧
    (stopListeningAlong st sid b).1.onlineUsers = st.onlineUsers ∧
    (stopListeningAlong st sid b).1.recentUsers = st.recentUsers ∧
    (stopListeningAlong st sid b).1.hasBot = st.hasBot ∧
    (stopListeningAlong st sid b).1.pending = st.pending := by
  unfold stopListeningAlong
  repeat' split
  all_goals exact ⟨rfl, rfl, rfl, rfl, rfl⟩

theorem stopAll_registries (fs : List String) : ∀ (st : GatewayState),
    (stopAll st fs).1.users = st.users ∧
    (stopAll st fs).1.onlineUsers = st.onlineUsers ∧
    (stopAll st fs).1.recentUsers = st.recentUsers ∧
    (stopAll st fs).1.hasBot = st.hasBot ∧
    (stopAll st fs).1.pending = st.pending := by
  induction fs with
  | nil => intro st; exact ⟨rfl, rfl, rfl, rfl, rfl⟩
  | cons f rest ih =>
    intro st
    have h1 := stopListeningAlong_registries st f true
    have h2 := ih (stopListeningAlong st f true).1
    exact ⟨h2.1.trans h1.1, h2.2.1.trans h1.2.1, h2.2.2.1.trans h1.2.2.1,
      h2.2.2.2.1.trans h1.2.2.2.1, h2.2.2.2.2.trans h1.2.2.2.2⟩

theorem closeTeardown_registries (st : GatewayState) (sid : String) :
    (closeTeardown st sid).1.users = st.users ∧
    (closeTeardown st sid).1.onlineUsers = st.onlineUsers ∧
    (closeTeardown st sid).1.recentUsers = st.recentUsers ∧
    (closeTeardown st sid).1.hasBot = st.hasBot ∧
    (closeTeardown st sid).1.pending = st.pending := by
  unfold closeTeardown
  cases hc : lookupC st sid with
  | none => exact ⟨rfl, rfl, rfl, rfl, rfl⟩
  | some c =>
    dsimp only
    have h1 : (if c.listeningWith.isSome then stopListeningAlong st sid false
        else (st, [])).1.users = st.users ∧
        (if c.listeningWith.isSome then stopListeningAlong st sid false
          else (st, [])).1.onlineUsers = st.onlineUsers ∧
        (if c.listeningWith.isSome then stopListeningAlong st sid false
          else (st, [])).1.recentUsers = st.recentUsers ∧
        (if c.listeningWith.isSome then stopListeningAlong st sid false
          else (st, [])).1.hasBot = st.hasBot ∧
        (if c.listeningWith.isSome then stopListeningAlong st sid false
          else (st, [])).1.pending = st.pending := by
      split_ifs
      · exact stopListeningAlong_registries st sid false
      · exact ⟨rfl, rfl, rfl, rfl, rfl⟩
    have h2 := stopAll_registries
      (match lookupC (if c.listeningWith.isSome then stopListeningAlong st sid false
          else (st, [])).1 sid with
        | none => []
        | some c1 => c1.listeningAlong)
      (if c.listeningWith.isSome then stopListeningAlong st sid false else (st, [])).1
    exact ⟨h2.1.trans h1.1, h2.2.1.trans h1.2.1, h2.2.2.1.trans h1.2.2.1,
      h2.2.2.2.1.trans h1.2.2.2.1, h2.2.2.2.2.trans h1.2.2.2.2⟩

/-- Disconnect cleanup never clears the bot flag (nor the task queue). -/
theorem handleClose_hasBot (st : GatewayState) (sid : String)
    (dbUsers : List (String × User)) (now : Int) :
    (handleClose st sid dbUsers now).1.hasBot = st.hasBot := by
  have ht := (closeTeardown_registries st sid).2.2.2.1
  unfold handleClose
  cases hc : lookupC st sid with
  | none => rfl
  | some c =>
    dsimp only [delC]
    cases c.userId with
    | none => exact ht
    | some uid =>
      dsimp only
      cases lookupKV (closeTeardown st sid).1.users uid with
      | none => exact ht
      | some sessions =>
        dsimp only
        split_ifs <;>
          first
            | exact ht
            | (cases lookupKV dbUsers uid <;> exact ht)

/-- Firing a pending task can only set the bot flag, never clear it. -/
theorem fireNext_hasBot (st : GatewayState) (db1 db2 : List (String × User))
    (now : Int) (cfg : Config) (hb : st.hasBot = true) :
    (fireNext st db1 db2 now cfg).st.hasBot = true := by
  unfold fireNext
  repeat' (first | split | dsimp only)
  all_goals first | rfl | exact hb

/-- The handshake schedules a bot claim only when the flag is unset at
handshake time and the token is the bot secret. -/
theorem recvFrame_botClaim_guard (st : GatewayState) (sid : String)
    (msg : GatewayMessage) (now : Int) (cfg : Config) (sid' : String)
    (hmem : PendingTask.botClaim sid' ∈ (recvFrame st sid msg now cfg).st.pending) :
    PendingTask.botClaim sid' ∈ st.pending ∨
      (st.hasBot = false ∧ msg.token = some cfg.discordToken ∧ sid' = sid) := by
  have hmem' : PendingTask.botClaim sid' ∈ (initCheck st sid msg now cfg).2.1.pending := by
    unfold recvFrame at hmem
    dsimp only at hmem
    split_ifs at hmem <;> exact hmem
  unfold initCheck at hmem'
  split at hmem'
  · exact Or.inl hmem'
  · split_ifs at hmem' with h1 h2 h3
    · exact Or.inl hmem'
    · exact Or.inl hmem'
    · -- bot branch
      dsimp only at hmem'
      rcases List.mem_append.mp hmem' with hm | hm
      · exact Or.inl hm
      · have heq := List.mem_singleton.mp hm
        have hsid : sid' = sid := by
          injection heq with h
        refine Or.inr ⟨?_, h3.2, hsid⟩
        have := h3.1
        simp only [Bool.not_eq_true'] at this
        exact this
    · -- user branch
      dsimp only at hmem'
      rcases List.mem_append.mp hmem' with hm | hm
      · exact Or.inl hm
      · have heq := List.mem_singleton.mp hm
        exact PendingTask.noConfusion heq

/-- A successful handshake resolution deletes the user\'s recent-users
entry. -/
theorem fireNext_auth_recent (st : GatewayState) (sid : String)
    (token vis pmode : Option String) (rest : List PendingTask)
    (dbByToken dbById : List (String × User)) (now : Int) (cfg : Config)
    (user : User) (c0 : ClientState)
    (hp : st.pending = PendingTask.authResolve sid token vis pmode :: rest)
    (hc : lookupC st sid = some c0)
    (hdb : token.bind (lookupKV dbByToken) = some user) :
    (fireNext st dbByToken dbById now cfg).st.recentUsers =
      delKV st.recentUsers user.userId := by
  have hc' : lookupC { st with pending := rest } sid = some c0 := hc
  unfold fireNext
  rw [hp]
  dsimp only
  rw [hc']
  dsimp only
  rw [hdb]
  dsimp only
  split
  · rfl
  · split_ifs <;> rfl

/-- Connection-registry and frame outputs of `handleClose`: the frames are
the teardown frames, and the client table is the teardown table minus the
closing session. -/
theorem handleClose_clients_sends (st : GatewayState) (sid : String)
    (dbUsers : List (String × User)) (now : Int) (c : ClientState)
    (hc : lookupC st sid = some c) :
    (handleClose st sid dbUsers now).1.clients =
      (delC (closeTeardown st sid).1 sid).clients ∧
    (handleClose st sid dbUsers now).2 = (closeTeardown st sid).2 := by
  unfold handleClose
  rw [hc]
  dsimp only [delC]
  cases c.userId with
  | none => exact ⟨rfl, rfl⟩
  | some uid =>
    dsimp only
    cases lookupKV (closeTeardown st sid).1.users uid with
    | none => exact ⟨rfl, rfl⟩
    | some sessions =>
      dsimp only
      constructor
      · split_ifs <;>
          first
            | rfl
            | (cases lookupKV dbUsers uid <;> rfl)
      · rfl

/-- Session lookup after `handleClose`. -/
theorem lookupC_handleClose (st : GatewayState) (sid : String)
    (dbUsers : List (String × User)) (now : Int) (c : ClientState) (a : String)
    (hc : lookupC st sid = some c) :
    lookupC (handleClose st sid dbUsers now).1 a =
      if a = sid then none else lookupC (closeTeardown st sid).1 a := by
  have h := (handleClose_clients_sends st sid dbUsers now c hc).1
  have h2 : lookupC (handleClose st sid dbUsers now).1 a =
      lookupC (delC (closeTeardown st sid).1 sid) a := by
    rw [lookupC, h]; rfl
  rw [h2, lookupC_delC]

/-- Directory updates of a full `handleClose` for an authenticated session
whose user is in the User Index: the `OnlineUser` entry is always
deleted, the `RecentUser` snapshot is taken exactly under the code\'s
condition, and the User Index entry shrinks or disappears. -/
theorem handleClose_registry (st : GatewayState) (sid : String) (c : ClientState)
    (uid : String) (sessions : List String) (dbUsers : List (String × User))
    (now : Int) (hc : lookupC st sid = some c) (hu : c.userId = some uid)
    (hsessSt : lookupKV st.users uid = some sessions) :
    (handleClose st sid dbUsers now).1.onlineUsers = delKV st.onlineUsers uid ∧
    (handleClose st sid dbUsers now).1.recentUsers =
      (if lookupKV st.recentUsers uid = none ∧ c.listeningTo.isSome then
         match lookupKV dbUsers uid with
         | none => st.recentUsers
         | some user => setKV st.recentUsers uid (mkOfflineUser c user now)
       else st.recentUsers) ∧
    (handleClose st sid dbUsers now).1.users =
      (if sessions.length < 2 then delKV st.users uid
       else setKV st.users uid (removeSession sessions sid)) := by
  have hreg := closeTeardown_registries st sid
  have hsess : lookupKV (closeTeardown st sid).1.users uid = some sessions := by
    rw [hreg.1]; exact hsessSt
  rw [handleClose_eq_full dbUsers now hc hu hsess]
  dsimp only [delC]
  refine ⟨?_, ?_, ?_⟩ <;>
    split_ifs <;>
    (try cases hdb : lookupKV dbUsers uid) <;>
    simp_all [hreg.1, hreg.2.1, hreg.2.2.1]

/-! ## Presence debounce lemmas -/

/-! ## Presence debounce lemmas -/

/-- While `lastUpdate` is already inside the window `[s, s + 4000)`, every
further event inside that window is skipped entirely. -/
theorem presence_skip_window (cfg : Config) (s : Int) :
    ∀ (evs : List (Int × Option User)) (c : ClientState),
      (∀ e ∈ evs, s ≤ e.1 ∧ e.1 < s + 4000) → s ≤ c.lastUpdate →
      runPresenceEvents c cfg evs = (c, 0)
  | [], c, _, _ => rfl
  | (t, u) :: rest, c, h, hc => by
    have ht := h (t, u) (List.mem_cons_self _ _)
    have hskip : t - c.lastUpdate < 4000 := by omega
    simp only [runPresenceEvents, updatePresence, if_pos hskip]
    rw [presence_skip_window cfg s rest c
      (fun e he => h e (List.mem_cons_of_mem _ he)) hc]
    simp

/-- A non-skipped invocation leaves the session with `lastUpdate = now`. -/
theorem updatePresence_fst (c : ClientState) (now : Int) (u : Option User)
    (cfg : Config) (h : ¬ now - c.lastUpdate < 4000) :
    (updatePresence c now u cfg).1 = { c with lastUpdate := now } := by
  simp only [updatePresence, if_neg h]
  cases u with
  | none => rfl
  | some user =>
    dsimp only
    split_ifs with h1 h2
    · rfl
    · rfl
    · cases hl : c.listeningTo <;> simp [hl]

/-- At most one Presence Publisher call results from any event sequence
confined to one 4000 ms window. -/
theorem presence_at_most_one (cfg : Config) (s : Int) :
    ∀ (evs : List (Int × Option User)) (c : ClientState),
      (∀ e ∈ evs, s ≤ e.1 ∧ e.1 < s + 4000) →
      (runPresenceEvents c cfg evs).2 ≤ 1
  | [], c, _ => by simp [runPresenceEvents]
  | (t, u) :: rest, c, h => by
    have ht := h (t, u) (List.mem_cons_self _ _)
    have hrest : ∀ e ∈ rest, s ≤ e.1 ∧ e.1 < s + 4000 :=
      fun e he => h e (List.mem_cons_of_mem _ he)
    by_cases hskip : t - c.lastUpdate < 4000
    · simp only [runPresenceEvents, updatePresence, if_pos hskip]
      simpa using presence_at_most_one cfg s rest c hrest
    · have hfst := updatePresence_fst c t u cfg hskip
      have hlast : s ≤ (updatePresence c t u cfg).1.lastUpdate := by
        rw [hfst]; exact ht.1
      simp only [runPresenceEvents]
      rw [presence_skip_window cfg s rest _ hrest hlast]
      cases (updatePresence c t u cfg).2 <;> simp

/-! ## Claim C6 -/

/-- C6: presence pushes are debounced per session: an invocation less than
4000 ms after the session's `lastUpdate` timestamp returns with the state
unchanged and no Presence Publisher call, and any number of
presence-relevant events within one 4000 ms window produce at most one
Publisher call. -/
theorem c6_presence_debounced :
    (∀ (c : ClientState) (now : Int) (u : Option User) (cfg : Config),
      now - c.lastUpdate < 4000 → updatePresence c now u cfg = (c, none)) ∧
    (∀ (cfg : Config) (s : Int) (evs : List (Int × Option User)) (c : ClientState),
      (∀ e ∈ evs, s ≤ e.1 ∧ e.1 < s + 4000) →
      (runPresenceEvents c cfg evs).2 ≤ 1) := by
  constructor
  · intro c now u cfg h
    simp [updatePresence, h]
  · intro cfg s evs c h
    exact presence_at_most_one cfg s evs c h

/-- Witness for C6 at concrete inputs: a session whose last update was at
time 0 skips an invocation at 3999, and three events at 4000, 5000 and
7999 inside the window `[4000, 8000)` produce exactly at most one push. -/
theorem c6_presence_debounced_witness :
    updatePresence (freshClient 0) 3999 none ⟨"T", "app", "icon", "web", false⟩ =
        (freshClient 0, none) ∧
    (runPresenceEvents (freshClient 0) ⟨"T", "app", "icon", "web", false⟩
        [(4000, none), (5000, none), (7999, none)]).2 ≤ 1 := by
  constructor
  · exact c6_presence_debounced.1 (freshClient 0) 3999 none _ (by decide)
  · exact c6_presence_debounced.2 ⟨"T", "app", "icon", "web", false⟩ 4000 _
      (freshClient 0) (by decide)

/-! ## Claim C8 -/

/-- C8: `broadcast(userId, message)` with no User Index entry performs no
send; with an entry, the message goes to every session of that entry. -/
theorem c8_broadcast_spec (st : GatewayState) (uid : String) (m : OutMessage) :
    (lookupKV st.users uid = none → broadcast st uid m = []) ∧
    (∀ sessions, lookupKV st.users uid = some sessions →
      broadcast st uid m = sessions.map (fun sid => (sid, m)) ∧
      ∀ sid ∈ sessions, (sid, m) ∈ broadcast st uid m) := by
  constructor
  · intro h; simp [broadcast, h]
  · intro sessions h
    constructor
    · simp [broadcast, h]
    · intro sid hs
      simp only [broadcast, h, List.mem_map]
      exact ⟨sid, hs, rfl⟩

/-- Witness for C8: an index with one entry for `"u"` and none for `"v"`. -/
theorem c8_broadcast_witness :
    broadcast { users := [("u", ["s1", "s2"])] } "v" OutMessage.initFrame = [] ∧
    ("s2", OutMessage.initFrame) ∈
      broadcast { users := [("u", ["s1", "s2"])] } "u" OutMessage.initFrame := by
  constructor
  · exact (c8_broadcast_spec { users := [("u", ["s1", "s2"])] } "v" OutMessage.initFrame).1
      (by decide)
  · exact ((c8_broadcast_spec { users := [("u", ["s1", "s2"])] } "u"
      OutMessage.initFrame).2 ["s1", "s2"] (by decide)).2 "s2" (by decide)

/-! ## Claim C1 -/

/-- C1: a decoded frame of any non-handshake type arriving on a session
that has not initialized draws exactly one `not-initialized` error frame,
the connection is closed, no handler module runs, and the gateway state is
left unchanged. -/
theorem c1_uninitialized_frame_rejected (st : GatewayState) (sid : String)
    (msg : GatewayMessage) (now : Int) (cfg : Config) (c : ClientState)
    (hc : lookupC st sid = some c) (hinit : c.initDone = false)
    (htype : msg.type ≠ "initialize") :
    recvFrame st sid msg now cfg =
      { st := st
        sends := [(sid, OutMessage.notInitFrame)]
        closes := [sid]
        handlerRan := none } := by
  simp [recvFrame, initCheck, hc, hinit, htype]

/-- Witness for C1: a fresh session receiving a `player` frame first. -/
theorem c1_uninitialized_frame_rejected_witness :
    recvFrame { clients := [("s", freshClient 0)] } "s" { type := "player" } 5
        ⟨"T", "app", "icon", "web", false⟩ =
      { st := { clients := [("s", freshClient 0)] }
        sends := [("s", OutMessage.notInitFrame)]
        closes := ["s"]
        handlerRan := none } :=
  c1_uninitialized_frame_rejected _ "s" _ 5 _ (freshClient 0) (by decide) rfl (by decide)

/-! ## Recently-played list lemmas -/

/-- If a list holds at most one element satisfying `p`, then after
`eraseP p` none is left. -/
theorem eraseP_none_left {α : Type} (p : α → Bool) :
    ∀ (l : List α), l.countP p ≤ 1 → ∀ x ∈ l.eraseP p, p x = false
  | [], _, x, hx => by simp at hx
  | a :: rest, h, x, hx => by
    by_cases hp : p a
    · rw [List.eraseP_cons_of_pos hp] at hx
      have hcount : rest.countP p = 0 := by
        rw [List.countP_cons_of_pos p rest hp] at h
        omega
      have := List.countP_eq_zero.mp hcount x hx
      simpa using this
    · rw [List.eraseP_cons_of_neg (by simpa using hp)] at hx
      rw [List.mem_cons] at hx
      rcases hx with rfl | hx
      · simpa using hp
      · have hcount : rest.countP p ≤ 1 := by
          rw [List.countP_cons_of_neg p rest (by simpa using hp)] at h
          exact h
        exact eraseP_none_left p rest hcount x hx

/-! ## Claim C10 -/

/-- C10: `addRecentlyPlayed(track)` stores a list whose head is the given
track, whose tail holds no entry with the same track id (provided the
stored list held at most one such entry, the invariant this function
itself maintains), whose length is at most 9, and broadcasts the updated
list in a `recents` frame to every session of the user. -/
theorem c10_addRecentlyPlayed_spec (st : GatewayState) (sid : String)
    (track : Track) (dbUsers : List (String × User)) (c : ClientState)
    (uid : String) (user : User) (sessions : List String)
    (hc : lookupC st sid = some c) (hu : c.userId = some uid)
    (hdb : lookupKV dbUsers uid = some user)
    (hsess : lookupKV st.users uid = some sessions)
    (hcount : (user.recentlyPlayed.getD []).countP
      (fun t => t.id = track.id) ≤ 1) :
    addRecentlyPlayed st sid track dbUsers =
      (some { user with recentlyPlayed := some (updatedRecents user.recentlyPlayed track) },
       sessions.map (fun s => (s, OutMessage.recentsFrame (updatedRecents user.recentlyPlayed track)))) ∧
    (updatedRecents user.recentlyPlayed track).head? = some track ∧
    (updatedRecents user.recentlyPlayed track).length ≤ 9 ∧
    (∀ t ∈ (updatedRecents user.recentlyPlayed track).tail, t.id ≠ track.id) := by
  refine ⟨?_, ?_, ?_, ?_⟩
  · simp [addRecentlyPlayed, hc, hu, hdb, broadcast, hsess]
  · simp [updatedRecents, List.take_succ_cons]
  · simp only [updatedRecents]
    rw [List.length_take]
    exact min_le_left _ _
  · intro t ht
    simp only [updatedRecents, List.take_succ_cons, List.tail_cons] at ht
    have ht' := List.mem_of_mem_take ht
    by_cases hfind : ((user.recentlyPlayed.getD []).findIdx?
        (fun t => t.id = track.id)).isSome
    · rw [if_pos hfind] at ht'
      have := eraseP_none_left _ _ hcount t ht'
      simpa using this
    · rw [if_neg hfind] at ht'
      rw [Option.not_isSome_iff_eq_none] at hfind
      rw [List.findIdx?_eq_none_iff] at hfind
      have := hfind t ht'
      simpa using this

/-- Witness for C10: a user with two stored tracks, one matching the new
track's id, and two live sessions. -/
theorem c10_addRecentlyPlayed_witness :
    (updatedRecents (some [⟨"a", "A", "X", "i", "u", 10⟩, ⟨"b", "B", "Y", "i", "u", 20⟩])
        ⟨"a", "A2", "X2", "i2", "u2", 11⟩).head? = some ⟨"a", "A2", "X2", "i2", "u2", 11⟩ ∧
    (∀ t ∈ (updatedRecents (some [⟨"a", "A", "X", "i", "u", 10⟩, ⟨"b", "B", "Y", "i", "u", 20⟩])
        ⟨"a", "A2", "X2", "i2", "u2", 11⟩).tail, t.id ≠ "a") := by
  have h := c10_addRecentlyPlayed_spec
    { clients := [("s", { freshClient 0 with userId := some "u" })],
      users := [("u", ["s"])] }
    "s" ⟨"a", "A2", "X2", "i2", "u2", 11⟩
    [("u", { userId := "u", username := "n", discriminator := "0", avatar := "av",
             recentlyPlayed := some [⟨"a", "A", "X", "i", "u", 10⟩, ⟨"b", "B", "Y", "i", "u", 20⟩] })]
    { freshClient 0 with userId := some "u" } "u"
    { userId := "u", username := "n", discriminator := "0", avatar := "av",
      recentlyPlayed := some [⟨"a", "A", "X", "i", "u", 10⟩, ⟨"b", "B", "Y", "i", "u", 20⟩] }
    ["s"] (by decide) rfl (by decide) (by decide) (by decide)
  exact ⟨h.2.1, h.2.2.2⟩

/-! ## Claim C9 -/

/-- C9: closing a session whose handshake never succeeded (`userId` still
null) leaves the User Index and both directories unchanged; only the
session\'s registry entry and its listen-along edges disappear. -/
theorem c9_anonymous_close_spec (st : GatewayState) (sid : String)
    (c : ClientState) (dbUsers : List (String × User)) (now : Int)
    (hinv : inv st) (hc : lookupC st sid = some c) (hu : c.userId = none) :
    (handleClose st sid dbUsers now).1.users = st.users ∧
    (handleClose st sid dbUsers now).1.onlineUsers = st.onlineUsers ∧
    (handleClose st sid dbUsers now).1.recentUsers = st.recentUsers ∧
    (handleClose st sid dbUsers now).1.hasBot = st.hasBot ∧
    lookupC (handleClose st sid dbUsers now).1 sid = none ∧
    (∀ a, a ≠ sid →
      (lookupC (handleClose st sid dbUsers now).1 a).isSome = (lookupC st a).isSome) ∧
    (∀ a ca', lookupC (handleClose st sid dbUsers now).1 a = some ca' →
      ca'.listeningWith ≠ some sid ∧ sid ∉ ca'.listeningAlong) := by
  have hreg := closeTeardown_registries st sid
  obtain ⟨fs0, t1, t2, t3, t4, t5, t6, t7, t8, t9, t10, t11, t12⟩ :=
    closeTeardown_spec st sid c hinv hc
  have hlk := fun a => lookupC_handleClose st sid dbUsers now c a hc
  have hsidnone : lookupC (handleClose st sid dbUsers now).1 sid = none := by
    rw [hlk sid, if_pos rfl]
  have hinvF : inv (handleClose st sid dbUsers now).1 :=
    handleClose_inv st sid dbUsers now hinv
  refine ⟨?_, ?_, ?_, handleClose_hasBot st sid dbUsers now, hsidnone, ?_, ?_⟩
  · rw [handleClose_eq_anon dbUsers now hc hu]
    exact hreg.1
  · rw [handleClose_eq_anon dbUsers now hc hu]
    exact hreg.2.1
  · rw [handleClose_eq_anon dbUsers now hc hu]
    exact hreg.2.2.1
  · intro a ha
    rw [hlk a, if_neg ha]
    exact t12 a
  · intro a ca' ha'
    obtain ⟨hH, hB, hN⟩ := inv_lookup hinvF ha'
    constructor
    · intro hlwa
      rw [hlwa] at hH
      obtain ⟨cb, hcb, _⟩ := hostEdgeOk_some_iff.mp hH
      rw [hsidnone] at hcb
      exact Option.noConfusion hcb
    · intro hmem
      obtain ⟨cf, hcf, _⟩ := backEdgeOk_iff.mp (hB sid hmem)
      rw [hsidnone] at hcf
      exact Option.noConfusion hcf

/-- Witness for C9: an unauthenticated session in a one-user gateway. -/
theorem c9_anonymous_close_witness :
    (handleClose
        { clients := [("s", freshClient 0), ("t", { freshClient 0 with userId := some "u" })],
          users := [("u", ["t"])] } "s" [] 7).1.users = [("u", ["t"])] ∧
    lookupC (handleClose
        { clients := [("s", freshClient 0), ("t", { freshClient 0 with userId := some "u" })],
          users := [("u", ["t"])] } "s" [] 7).1 "s" = none := by
  have h := c9_anonymous_close_spec
    { clients := [("s", freshClient 0), ("t", { freshClient 0 with userId := some "u" })],
      users := [("u", ["t"])] } "s" (freshClient 0) [] 7
    (by decide) (by decide) rfl
  exact ⟨h.1, h.2.2.2.2.1⟩

/-! ## Claim C3 -/

/-- C3: when a host with followers closes, each follower receives exactly
one null `sync` frame (`track = null, progress = -1, paused = true`), no
follower retains a `listeningWith` afterwards, the host\'s
`listeningAlong` is emptied by the teardown, and the host is gone from
the registry. -/
theorem c3_host_close_teardown (st : GatewayState) (sid : String)
    (c : ClientState) (dbUsers : List (String × User)) (now : Int)
    (hinv : inv st) (hc : lookupC st sid = some c)
    (hne : c.listeningAlong ≠ []) (hself : sid ∉ c.listeningAlong) :
    (handleClose st sid dbUsers now).2 =
      c.listeningAlong.map (fun f => (f, nullSyncFrame)) ∧
    c.listeningAlong.Nodup ∧
    (∀ f ∈ c.listeningAlong, ∃ cf',
      lookupC (handleClose st sid dbUsers now).1 f = some cf' ∧
      cf'.listeningWith = none) ∧
    (∃ c', lookupC (closeTeardown st sid).1 sid = some c' ∧
      c'.listeningAlong = []) ∧
    lookupC (handleClose st sid dbUsers now).1 sid = none := by
  obtain ⟨fs0, t1, t2, t3, t4, t5, t6, t7, t8, t9, t10, t11, t12⟩ :=
    closeTeardown_spec st sid c hinv hc
  have hfs0 : fs0 = c.listeningAlong := t2 hself
  subst hfs0
  have hsends := (handleClose_clients_sends st sid dbUsers now c hc).2
  have hlk := fun a => lookupC_handleClose st sid dbUsers now c a hc
  obtain ⟨c', hc', hla', hlw'⟩ := t5
  refine ⟨?_, t3, ?_, ⟨c', hc', hla'⟩, ?_⟩
  · rw [hsends, t1]
  · intro f hf
    obtain ⟨cf', hcf', hcfl'⟩ := t6 f hf
    have hfsid : f ≠ sid := fun hfe => hself (hfe ▸ hf)
    refine ⟨cf', ?_, hcfl'⟩
    rw [hlk f, if_neg hfsid]
    exact hcf'
  · rw [hlk sid, if_pos rfl]

/-- Witness for C3: a host with two followers, all unauthenticated. -/
theorem c3_host_close_teardown_witness :
    (handleClose
        { clients := [("H", { freshClient 0 with listeningAlong := ["F1", "F2"] }),
                      ("F1", { freshClient 0 with listeningWith := some "H" }),
                      ("F2", { freshClient 0 with listeningWith := some "H" })] }
        "H" [] 3).2 = [("F1", nullSyncFrame), ("F2", nullSyncFrame)] ∧
    lookupC (handleClose
        { clients := [("H", { freshClient 0 with listeningAlong := ["F1", "F2"] }),
                      ("F1", { freshClient 0 with listeningWith := some "H" }),
                      ("F2", { freshClient 0 with listeningWith := some "H" })] }
        "H" [] 3).1 "H" = none := by
  have h := c3_host_close_teardown
    { clients := [("H", { freshClient 0 with listeningAlong := ["F1", "F2"] }),
                  ("F1", { freshClient 0 with listeningWith := some "H" }),
                  ("F2", { freshClient 0 with listeningWith := some "H" })] }
    "H" { freshClient 0 with listeningAlong := ["F1", "F2"] } [] 3
    (by decide) (by decide) (by decide) (by decide)
  refine ⟨?_, h.2.2.2.2⟩
  rw [h.1]
  rfl

/-! ## Claim C4 -/

/-- C4 counterexample: from a well-formed state in which A follows B,
invoking `listenAlong(A, C)` leaves A in B\'s `listeningAlong` while
`A.listeningWith` is C — the mutual-inverse invariant is broken, because
`listenAlong` never removes the old edge. -/
theorem c4_counterexample :
    inv { clients := [("A", { freshClient 0 with listeningWith := some "B" }),
                      ("B", { freshClient 0 with listeningAlong := ["A"] }),
                      ("C", freshClient 0)] } ∧
    ¬ inv (listenAlong
        { clients := [("A", { freshClient 0 with listeningWith := some "B" }),
                      ("B", { freshClient 0 with listeningAlong := ["A"] }),
                      ("C", freshClient 0)] } "A" "C").1 ∧
    (lookupC (listenAlong
        { clients := [("A", { freshClient 0 with listeningWith := some "B" }),
                      ("B", { freshClient 0 with listeningAlong := ["A"] }),
                      ("C", freshClient 0)] } "A" "C").1 "B").map
      ClientState.listeningAlong = some ["A"] ∧
    (lookupC (listenAlong
        { clients := [("A", { freshClient 0 with listeningWith := some "B" }),
                      ("B", { freshClient 0 with listeningAlong := ["A"] }),
                      ("C", freshClient 0)] } "A" "C").1 "A").map
      ClientState.listeningWith = some (some "C") := by
  decide

/-- C4 (amended): the mutual-inverse invariant is preserved by
`stopListeningAlong`, by disconnect cleanup, and by `listenAlong` when
the follower has no current host or re-targets its current host; invoking
`listenAlong` for a follower that already has a *different* host leaves
the stale back-edge in place (see the counterexample). -/
theorem c4_mutual_inverse_preservation :
    (∀ (st : GatewayState) (sid : String) (b : Bool),
      inv st → inv (stopListeningAlong st sid b).1) ∧
    (∀ (st : GatewayState) (fid hid : String) (cf ch : ClientState),
      inv st → lookupC st fid = some cf → lookupC st hid = some ch →
      (cf.listeningWith = none ∨ cf.listeningWith = some hid) →
      inv (listenAlong st fid hid).1) ∧
    (∀ (st : GatewayState) (sid : String) (dbUsers : List (String × User)) (now : Int),
      inv st → inv (handleClose st sid dbUsers now).1) := by
  refine ⟨?_, ?_, ?_⟩
  · intro st sid b h
    exact stopListeningAlong_inv st sid b h
  · intro st fid hid cf ch h hcf hch hfree
    exact listenAlong_inv st fid hid cf ch h hcf hch hfree
  · intro st sid dbUsers now h
    exact handleClose_inv st sid dbUsers now h

/-- Witness for C4 (amended): the preserved invariant evaluated on a
concrete two-session state. -/
theorem c4_mutual_inverse_preservation_witness :
    inv (listenAlong
        { clients := [("A", freshClient 0), ("B", freshClient 0)] } "A" "B").1 ∧
    inv (handleClose
        { clients := [("A", { freshClient 0 with listeningWith := some "B" }),
                      ("B", { freshClient 0 with listeningAlong := ["A"] })] }
        "B" [] 0).1 := by
  constructor
  · exact c4_mutual_inverse_preservation.2.1
      { clients := [("A", freshClient 0), ("B", freshClient 0)] } "A" "B"
      (freshClient 0) (freshClient 0) (by decide) (by decide) (by decide)
      (Or.inl rfl)
  · exact c4_mutual_inverse_preservation.2.2
      { clients := [("A", { freshClient 0 with listeningWith := some "B" }),
                    ("B", { freshClient 0 with listeningAlong := ["A"] })] }
      "B" [] 0 (by decide)

/-! ## Claim C2 -/

/-- C2 counterexample: a user with two simultaneously Active sessions;
when one closes, `handleClose` deletes the `OnlineUser` entry even though
the other session is still Active and still indexed — the claimed
"entry iff ≥ 1 Active session" fails. -/
theorem c2_counterexample :
    lookupKV (handleClose
        { clients := [("c1", { freshClient 0 with initDone := true, userId := some "u" }),
                      ("c2", { freshClient 0 with initDone := true, userId := some "u" })],
          users := [("u", ["c1", "c2"])],
          onlineUsers := [("u", ⟨"Everyone", "n", "0", "u", "av", 0, none⟩)] }
        "c1" [] 0).1.onlineUsers "u" = none ∧
    lookupKV (handleClose
        { clients := [("c1", { freshClient 0 with initDone := true, userId := some "u" }),
                      ("c2", { freshClient 0 with initDone := true, userId := some "u" })],
          users := [("u", ["c1", "c2"])],
          onlineUsers := [("u", ⟨"Everyone", "n", "0", "u", "av", 0, none⟩)] }
        "c1" [] 0).1.users "u" = some ["c2"] := by
  decide

/-- C2 (amended): the `OnlineUser` entry is deleted whenever *any*
indexed session of the user closes — even when other Active sessions
remain, in which case the User Index keeps the remaining sessions. -/
theorem c2_online_delete_on_any_close (st : GatewayState) (sid : String)
    (c : ClientState) (uid : String) (sessions : List String)
    (dbUsers : List (String × User)) (now : Int)
    (hc : lookupC st sid = some c) (hu : c.userId = some uid)
    (hsessSt : lookupKV st.users uid = some sessions)
    (hlen : 2 ≤ sessions.length) :
    lookupKV (handleClose st sid dbUsers now).1.onlineUsers uid = none ∧
    lookupKV (handleClose st sid dbUsers now).1.users uid =
      some (removeSession sessions sid) := by
  obtain ⟨ho, hr, hus⟩ :=
    handleClose_registry st sid c uid sessions dbUsers now hc hu hsessSt
  constructor
  · rw [ho, lookupKV_delKV, if_pos rfl]
  · rw [hus, if_neg (by omega), lookupKV_setKV, if_pos rfl]

/-- Witness for C2 (amended), on the counterexample state. -/
theorem c2_online_delete_on_any_close_witness :
    lookupKV (handleClose
        { clients := [("c1", { freshClient 0 with initDone := true, userId := some "u" }),
                      ("c2", { freshClient 0 with initDone := true, userId := some "u" })],
          users := [("u", ["c1", "c2"])],
          onlineUsers := [("u", ⟨"Everyone", "n", "0", "u", "av", 0, none⟩)] }
        "c1" [] 0).1.onlineUsers "u" = none := by
  exact (c2_online_delete_on_any_close
    { clients := [("c1", { freshClient 0 with initDone := true, userId := some "u" }),
                  ("c2", { freshClient 0 with initDone := true, userId := some "u" })],
      users := [("u", ["c1", "c2"])],
      onlineUsers := [("u", ⟨"Everyone", "n", "0", "u", "av", 0, none⟩)] }
    "c1" { freshClient 0 with initDone := true, userId := some "u" } "u"
    ["c1", "c2"] [] 0 (by decide) rfl (by decide) (by decide)).1

/-! ## Claim C5 -/

/-- C5 counterexample: with two Active sessions of the same user and a
current track, closing one session creates the `RecentUser` entry even
though a session remains (so creation is *not* tied to the 1→0
transition); a subsequent online-status update of the surviving session
recreates the `OnlineUser` entry while the `RecentUser` entry persists,
so the user sits in both directories at once. -/
theorem c5_counterexample :
    lookupKV (handleClose
        { clients := [("c1", { freshClient 0 with initDone := true, userId := some "u", listeningTo := some ⟨"t", "T", "A", "i", "url", 100⟩ }),
                      ("c2", { freshClient 0 with initDone := true, userId := some "u" })],
          users := [("u", ["c1", "c2"])],
          onlineUsers := [("u", ⟨"Everyone", "n", "0", "u", "av", 0, none⟩)] }
        "c1" [("u", { userId := "u", username := "n", discriminator := "0", avatar := "av" })]
        5).1.users "u" = some ["c2"] ∧
    (lookupKV (handleClose
        { clients := [("c1", { freshClient 0 with initDone := true, userId := some "u", listeningTo := some ⟨"t", "T", "A", "i", "url", 100⟩ }),
                      ("c2", { freshClient 0 with initDone := true, userId := some "u" })],
          users := [("u", ["c1", "c2"])],
          onlineUsers := [("u", ⟨"Everyone", "n", "0", "u", "av", 0, none⟩)] }
        "c1" [("u", { userId := "u", username := "n", discriminator := "0", avatar := "av" })]
        5).1.recentUsers "u").isSome = true ∧
    (lookupKV (updateOnlineStatus (handleClose
        { clients := [("c1", { freshClient 0 with initDone := true, userId := some "u", listeningTo := some ⟨"t", "T", "A", "i", "url", 100⟩ }),
                      ("c2", { freshClient 0 with initDone := true, userId := some "u" })],
          users := [("u", ["c1", "c2"])],
          onlineUsers := [("u", ⟨"Everyone", "n", "0", "u", "av", 0, none⟩)] }
        "c1" [("u", { userId := "u", username := "n", discriminator := "0", avatar := "av" })]
        5).1 "c2"
        (some { userId := "u", username := "n", discriminator := "0", avatar := "av" })
        none).onlineUsers "u").isSome = true ∧
    (lookupKV (updateOnlineStatus (handleClose
        { clients := [("c1", { freshClient 0 with initDone := true, userId := some "u", listeningTo := some ⟨"t", "T", "A", "i", "url", 100⟩ }),
                      ("c2", { freshClient 0 with initDone := true, userId := some "u" })],
          users := [("u", ["c1", "c2"])],
          onlineUsers := [("u", ⟨"Everyone", "n", "0", "u", "av", 0, none⟩)] }
        "c1" [("u", { userId := "u", username := "n", discriminator := "0", avatar := "av" })]
        5).1 "c2"
        (some { userId := "u", username := "n", discriminator := "0", avatar := "av" })
        none).recentUsers "u").isSome = true := by
  decide

/-- C5 (amended): a `RecentUser` snapshot is taken on *any* close of an
indexed, authenticated session that has a current track, a database
record and no existing entry — regardless of how many sessions remain —
and a successful handshake resolution deletes the entry. -/
theorem c5_recent_creation_and_removal :
    (∀ (st : GatewayState) (sid : String) (c : ClientState) (uid : String)
        (sessions : List String) (dbUsers : List (String × User)) (now : Int)
        (tr : Track) (user : User),
      lookupC st sid = some c → c.userId = some uid →
      lookupKV st.users uid = some sessions →
      lookupKV st.recentUsers uid = none → c.listeningTo = some tr →
      lookupKV dbUsers uid = some user →
      lookupKV (handleClose st sid dbUsers now).1.recentUsers uid =
        some (mkOfflineUser c user now)) ∧
    (∀ (st : GatewayState) (sid : String) (token vis pmode : Option String)
        (rest : List PendingTask) (db1 db2 : List (String × User)) (now : Int)
        (cfg : Config) (user : User) (c0 : ClientState),
      st.pending = PendingTask.authResolve sid token vis pmode :: rest →
      lookupC st sid = some c0 →
      token.bind (lookupKV db1) = some user →
      lookupKV (fireNext st db1 db2 now cfg).st.recentUsers user.userId = none) := by
  constructor
  · intro st sid c uid sessions dbUsers now tr user hc hu hsessSt hrec htr hdb
    obtain ⟨ho, hr, hus⟩ :=
      handleClose_registry st sid c uid sessions dbUsers now hc hu hsessSt
    rw [hr, if_pos ⟨hrec, by rw [htr]; rfl⟩, hdb, lookupKV_setKV, if_pos rfl]
  · intro st sid token vis pmode rest db1 db2 now cfg user c0 hp hc hdb
    rw [fireNext_auth_recent st sid token vis pmode rest db1 db2 now cfg user c0 hp hc hdb]
    rw [lookupKV_delKV, if_pos rfl]

/-- Witness for C5 (amended): a snapshot created on a non-final close,
and removed by a successful handshake resolution. -/
theorem c5_recent_creation_and_removal_witness :
    lookupKV (handleClose
        { clients := [("c1", { freshClient 0 with initDone := true, userId := some "u", listeningTo := some ⟨"t", "T", "A", "i", "url", 100⟩ }),
                      ("c2", { freshClient 0 with initDone := true, userId := some "u" })],
          users := [("u", ["c1", "c2"])] }
        "c1" [("u", { userId := "u", username := "n", discriminator := "0", avatar := "av" })]
        5).1.recentUsers "u" =
      some (mkOfflineUser
        { freshClient 0 with initDone := true, userId := some "u", listeningTo := some ⟨"t", "T", "A", "i", "url", 100⟩ }
        { userId := "u", username := "n", discriminator := "0", avatar := "av" } 5) ∧
    lookupKV (fireNext
        { clients := [("s", { freshClient 0 with initDone := true })],
          recentUsers := [("u", ⟨"Everyone", "n", "0", "u", "av", 9, none⟩)],
          pending := [PendingTask.authResolve "s" (some "tok") none none] }
        [("tok", { userId := "u", username := "n", discriminator := "0", avatar := "av" })]
        [] 1000 ⟨"SECRET", "a", "i", "w", false⟩).st.recentUsers "u" = none := by
  constructor
  · exact c5_recent_creation_and_removal.1
      { clients := [("c1", { freshClient 0 with initDone := true, userId := some "u", listeningTo := some ⟨"t", "T", "A", "i", "url", 100⟩ }),
                    ("c2", { freshClient 0 with initDone := true, userId := some "u" })],
        users := [("u", ["c1", "c2"])] }
      "c1" { freshClient 0 with initDone := true, userId := some "u", listeningTo := some ⟨"t", "T", "A", "i", "url", 100⟩ } "u"
      ["c1", "c2"]
      [("u", { userId := "u", username := "n", discriminator := "0", avatar := "av" })]
      5 ⟨"t", "T", "A", "i", "url", 100⟩
      { userId := "u", username := "n", discriminator := "0", avatar := "av" }
      (by decide) rfl (by decide) (by decide) rfl (by decide)
  · exact c5_recent_creation_and_removal.2
      { clients := [("s", { freshClient 0 with initDone := true })],
        recentUsers := [("u", ⟨"Everyone", "n", "0", "u", "av", 9, none⟩)],
        pending := [PendingTask.authResolve "s" (some "tok") none none] }
      "s" (some "tok") none none []
      [("tok", { userId := "u", username := "n", discriminator := "0", avatar := "av" })]
      [] 1000 ⟨"SECRET", "a", "i", "w", false⟩
      { userId := "u", username := "n", discriminator := "0", avatar := "av" }
      { freshClient 0 with initDone := true }
      rfl (by decide) (by decide)

/-! ## Claim C7 -/

/-- C7 counterexample: the bot flag is only set when the scheduled claim
task runs (one second after the handshake), so two handshakes carrying the
secret that arrive before the first task fires both claim the bot
identity — two sessions end up with `userId = "bot"`. -/
theorem c7_counterexample :
    ((lookupC (fireNext (fireNext (recvFrame (recvFrame
        (connect (connect {} "s1" 0).1 "s2" 0).1
        "s1" { type := "initialize", token := some "SECRET" } 0
        ⟨"SECRET", "a", "i", "w", false⟩).st
        "s2" { type := "initialize", token := some "SECRET" } 0
        ⟨"SECRET", "a", "i", "w", false⟩).st
        [] [] 1000 ⟨"SECRET", "a", "i", "w", false⟩).st
        [] [] 1000 ⟨"SECRET", "a", "i", "w", false⟩).st "s1").map
      ClientState.userId = some (some "bot")) ∧
    ((lookupC (fireNext (fireNext (recvFrame (recvFrame
        (connect (connect {} "s1" 0).1 "s2" 0).1
        "s1" { type := "initialize", token := some "SECRET" } 0
        ⟨"SECRET", "a", "i", "w", false⟩).st
        "s2" { type := "initialize", token := some "SECRET" } 0
        ⟨"SECRET", "a", "i", "w", false⟩).st
        [] [] 1000 ⟨"SECRET", "a", "i", "w", false⟩).st
        [] [] 1000 ⟨"SECRET", "a", "i", "w", false⟩).st "s2").map
      ClientState.userId = some (some "bot")) := by
  decide

/-- C7 (amended): a handshake schedules a bot claim only when the flag is
unset at handshake time and the token equals the secret; firing a task
never clears the flag (so once set, no later handshake can schedule a
claim); and disconnect never clears the flag.  Two handshakes passing the
guard before the first claim task runs can still both claim the identity
(see the counterexample). -/
theorem c7_bot_singleton_guard :
    (∀ (st : GatewayState) (sid : String) (msg : GatewayMessage) (now : Int)
        (cfg : Config) (sid' : String),
      PendingTask.botClaim sid' ∈ (recvFrame st sid msg now cfg).st.pending →
      PendingTask.botClaim sid' ∈ st.pending ∨
        (st.hasBot = false ∧ msg.token = some cfg.discordToken ∧ sid' = sid)) ∧
    (∀ (st : GatewayState) (db1 db2 : List (String × User)) (now : Int) (cfg : Config),
      st.hasBot = true → (fireNext st db1 db2 now cfg).st.hasBot = true) ∧
    (∀ (st : GatewayState) (sid : String) (dbUsers : List (String × User)) (now : Int),
      (handleClose st sid dbUsers now).1.hasBot = st.hasBot) := by
  refine ⟨?_, ?_, ?_⟩
  · intro st sid msg now cfg sid' hmem
    exact recvFrame_botClaim_guard st sid msg now cfg sid' hmem
  · intro st db1 db2 now cfg hb
    exact fireNext_hasBot st db1 db2 now cfg hb
  · intro st sid dbUsers now
    exact handleClose_hasBot st sid dbUsers now

/-- Witness for C7 (amended) at concrete states. -/
theorem c7_bot_singleton_guard_witness :
    (PendingTask.botClaim "x" ∈
        (recvFrame { pending := [PendingTask.botClaim "x"] } "s"
          { type := "player" } 0 ⟨"SECRET", "a", "i", "w", false⟩).st.pending →
      PendingTask.botClaim "x" ∈
          ({ pending := [PendingTask.botClaim "x"] } : GatewayState).pending ∨
        (({ pending := [PendingTask.botClaim "x"] } : GatewayState).hasBot = false ∧
          ({ type := "player" } : GatewayMessage).token =
            some (⟨"SECRET", "a", "i", "w", false⟩ : Config).discordToken ∧
          "x" = "s")) ∧
    (fireNext { hasBot := true } [] [] 0 ⟨"S", "a", "i", "w", false⟩).st.hasBot = true ∧
    (handleClose { clients := [("s", freshClient 0)] } "s" [] 0).1.hasBot =
      ({ clients := [("s", freshClient 0)] } : GatewayState).hasBot := by
  refine ⟨?_, ?_, ?_⟩
  · intro hmem
    exact c7_bot_singleton_guard.1 { pending := [PendingTask.botClaim "x"] } "s"
      { type := "player" } 0 ⟨"SECRET", "a", "i", "w", false⟩ "x" hmem
  · exact c7_bot_singleton_guard.2.1 { hasBot := true } [] [] 0
      ⟨"S", "a", "i", "w", false⟩ rfl
  · exact c7_bot_singleton_guard.2.2 { clients := [("s", freshClient 0)] } "s" [] 0

end Laudiolin
